import Mathlib

/-!
# URLshorter: a shallow embedding and its verified properties

The development follows the layering of the repository:

* `pkg/shortener`            : `Generate`, `Validate`, `isValidChar`
* `internal/repository`      : the sentinel errors and the `URLRepository` interface
* `internal/repository/memory` : `MemoryRepository` with `Save`, `Get`, `GetByOriginal`, `Clear`
* `internal/service`         : `URLService.Create`, `URLService.Resolve`, `validateURL`
* `internal/handler`         : `URLHandler.Shorten`, `URLHandler.Redirect`
* `internal/repository/postgres` : `PostgresRepository.Save`, `Get`, `GetByOriginal`

Go strings are byte sequences, so a string is a list of bytes here.  The
standard-library routines the code calls (`sha256.Sum256`,
`base64.RawURLEncoding.EncodeToString`, `strings.ReplaceAll`, the `range`
loop over a string) are written out as executable functions; `url.Parse`
is a parameter of the service.
-/

namespace URLShorter

/-! ## Strings -/

/-- A Go `byte`. -/
abbrev Byte := Fin 256

/-- A Go `string`: an immutable sequence of bytes (not necessarily valid UTF-8). -/
abbrev GoString := List Byte

/-- The bytes of a string literal of the source (its UTF-8 encoding). -/
def str (s : String) : GoString :=
  s.data.flatMap fun c => (String.utf8EncodeChar c).map fun b => Fin.ofNat b.toNat

/-! ## `crypto/sha256` (FIPS 180-4), on 32-bit words held in `Nat` -/

namespace sha256

/-- Truncation to a `uint32`. -/
def u32 (x : Nat) : Nat := x % 4294967296

/-- The function `bits.RotateLeft32(x, -n)`: rotation to the right by `n`, for `x < 2^32`. -/
def rotr (x n : Nat) : Nat := u32 ((x >>> n) ||| (x <<< (32 - n)))

/-- The round constants `_K`. -/
def K : List Nat :=
  [0x428A2F98, 0x71374491, 0xB5C0FBCF, 0xE9B5DBA5, 0x3956C25B, 0x59F111F1, 0x923F82A4, 0xAB1C5ED5,
   0xD807AA98, 0x12835B01, 0x243185BE, 0x550C7DC3, 0x72BE5D74, 0x80DEB1FE, 0x9BDC06A7, 0xC19BF174,
   0xE49B69C1, 0xEFBE4786, 0x0FC19DC6, 0x240CA1CC, 0x2DE92C6F, 0x4A7484AA, 0x5CB0A9DC, 0x76F988DA,
   0x983E5152, 0xA831C66D, 0xB00327C8, 0xBF597FC7, 0xC6E00BF3, 0xD5A79147, 0x06CA6351, 0x14292967,
   0x27B70A85, 0x2E1B2138, 0x4D2C6DFC, 0x53380D13, 0x650A7354, 0x766A0ABB, 0x81C2C92E, 0x92722C85,
   0xA2BFE8A1, 0xA81A664B, 0xC24B8B70, 0xC76C51A3, 0xD192E819, 0xD6990624, 0xF40E3585, 0x106AA070,
   0x19A4C116, 0x1E376C08, 0x2748774C, 0x34B0BCB5, 0x391C0CB3, 0x4ED8AA4A, 0x5B9CCA4F, 0x682E6FF3,
   0x748F82EE, 0x78A5636F, 0x84C87814, 0x8CC70208, 0x90BEFFFA, 0xA4506CEB, 0xBEF9A3F7, 0xC67178F2]

/-- The eight chaining words `h0 .. h7` (also used for the working variables `a .. h`). -/
structure Words where
  a : Nat
  b : Nat
  c : Nat
  d : Nat
  e : Nat
  f : Nat
  g : Nat
  h : Nat
deriving DecidableEq, Repr

/-- The initial hash value. -/
def init : Words :=
  ⟨0x6A09E667, 0xBB67AE85, 0x3C6EF372, 0xA54FF53A, 0x510E527F, 0x9B05688C, 0x1F83D9AB, 0x5BE0CD19⟩

/-- Message padding: `0x80`, zero bytes up to 56 modulo 64, then the bit length as a
big-endian `uint64`. -/
def pad (m : GoString) : List Nat :=
  let bits := (m.length * 8) % 18446744073709551616
  m.map (fun b => b.val) ++ [0x80] ++ List.replicate ((119 - m.length % 64) % 64) 0 ++
    [bits >>> 56 % 256, bits >>> 48 % 256, bits >>> 40 % 256, bits >>> 32 % 256,
     bits >>> 24 % 256, bits >>> 16 % 256, bits >>> 8 % 256, bits % 256]

/-- The first sixteen schedule words of a 64-byte chunk, big-endian. -/
def firstWords : List Nat → List Nat
  | b0 :: b1 :: b2 :: b3 :: rest =>
      ((b0 <<< 24) ||| (b1 <<< 16) ||| (b2 <<< 8) ||| b3) :: firstWords rest
  | _ => []

/-- One step of the schedule extension: `w[i] = t1 + w[i-7] + t2 + w[i-16]` with `i = |w|`. -/
def extend (w : List Nat) : List Nat :=
  let i := w.length
  let v1 := w.getD (i - 2) 0
  let t1 := (rotr v1 17) ^^^ (rotr v1 19) ^^^ (v1 >>> 10)
  let v2 := w.getD (i - 15) 0
  let t2 := (rotr v2 7) ^^^ (rotr v2 18) ^^^ (v2 >>> 3)
  w ++ [u32 (t1 + w.getD (i - 7) 0 + t2 + w.getD (i - 16) 0)]

/-- The 64-word message schedule of one chunk. -/
def schedule (chunk : List Nat) : List Nat :=
  Nat.iterate extend 48 (firstWords chunk)

/-- One round of the compression function, with round constant and schedule word `kw`. -/
def round (s : Words) (kw : Nat × Nat) : Words :=
  let t1 := s.h + ((rotr s.e 6) ^^^ (rotr s.e 11) ^^^ (rotr s.e 25)) +
    ((s.e &&& s.f) ^^^ ((s.e ^^^ 0xffffffff) &&& s.g)) + kw.1 + kw.2
  let t2 := ((rotr s.a 2) ^^^ (rotr s.a 13) ^^^ (rotr s.a 22)) +
    ((s.a &&& s.b) ^^^ (s.a &&& s.c) ^^^ (s.b &&& s.c))
  ⟨u32 (t1 + t2), s.a, s.b, s.c, u32 (s.d + t1), s.e, s.f, s.g⟩

/-- The function `blockGeneric` on one 64-byte chunk. -/
def block (dig : Words) (chunk : List Nat) : Words :=
  let r := (K.zip (schedule chunk)).foldl round dig
  ⟨u32 (dig.a + r.a), u32 (dig.b + r.b), u32 (dig.c + r.c), u32 (dig.d + r.d),
   u32 (dig.e + r.e), u32 (dig.f + r.f), u32 (dig.g + r.g), u32 (dig.h + r.h)⟩

/-- The 64-byte chunks of the padded message. -/
def chunks (p : List Nat) : List (List Nat) :=
  (List.range (p.length / 64)).map fun i => (p.drop (64 * i)).take 64

/-- A `uint32` as four big-endian bytes. -/
def be32 (w : Nat) : GoString :=
  [Fin.ofNat (w >>> 24), Fin.ofNat (w >>> 16), Fin.ofNat (w >>> 8), Fin.ofNat w]

/-- The function `sha256.Sum256`: the 32-byte digest of a byte sequence. -/
def Sum256 (data : GoString) : GoString :=
  let r := (chunks (pad data)).foldl block init
  be32 r.a ++ be32 r.b ++ be32 r.c ++ be32 r.d ++ be32 r.e ++ be32 r.f ++ be32 r.g ++ be32 r.h

end sha256

/-! ## `encoding/base64`, `strings` -/

namespace base64

/-- The URL-safe alphabet `encodeURL` of `encoding/base64`. -/
def encodeURL : GoString :=
  str "ABCDEFGHIJKLMNOPQRSTUVWXYZabcdefghijklmnopqrstuvwxyz0123456789-_"

/-- The lookup `enc.encode[i]`. -/
def enc (i : Nat) : Byte := encodeURL.getD i 0

/-- The function `base64.RawURLEncoding.EncodeToString`: URL-safe alphabet, no padding. -/
def EncodeToString : GoString → GoString
  | b0 :: b1 :: b2 :: rest =>
      let val := (b0.val <<< 16) ||| (b1.val <<< 8) ||| b2.val
      enc (val >>> 18 &&& 0x3F) :: enc (val >>> 12 &&& 0x3F) :: enc (val >>> 6 &&& 0x3F) ::
        enc (val &&& 0x3F) :: EncodeToString rest
  | [b0, b1] =>
      let val := (b0.val <<< 16) ||| (b1.val <<< 8)
      [enc (val >>> 18 &&& 0x3F), enc (val >>> 12 &&& 0x3F), enc (val >>> 6 &&& 0x3F)]
  | [b0] =>
      let val := b0.val <<< 16
      [enc (val >>> 18 &&& 0x3F), enc (val >>> 12 &&& 0x3F)]
  | [] => []

end base64

/-- The call `strings.ReplaceAll(s, old, new)` for one-byte `old` and `new`: every
occurrence of the byte is replaced. -/
def ReplaceAll (s : GoString) (old new : Byte) : GoString :=
  s.map fun b => if b = old then new else b

/-! ## `pkg/shortener` -/

/-- The constant `ShortURLLength`. -/
def ShortURLLength : Nat := 10

/-- The function `Generate` of `shortener.go`. -/
def Generate (originalURL : GoString) : GoString :=
  let hash := sha256.Sum256 originalURL
  let encoded := base64.EncodeToString hash
  let encoded := ReplaceAll encoded 45 95
  if encoded.length > ShortURLLength then encoded.take ShortURLLength else encoded

/-- The function `isValidChar` of `shortener.go`, on a rune. -/
def isValidChar (ch : Nat) : Bool :=
  (ch ≥ 'a'.toNat && ch ≤ 'z'.toNat) ||
    (ch ≥ 'A'.toNat && ch ≤ 'Z'.toNat) ||
    (ch ≥ '0'.toNat && ch ≤ '9'.toNat) ||
    ch == '_'.toNat

/-- The rune `utf8.RuneError`, produced by `range` for an invalid encoding. -/
def RuneError : Nat := 0xFFFD

/-- A UTF-8 continuation byte. -/
def isCont (b : Byte) : Bool := 0x80 ≤ b.val && b.val ≤ 0xBF

/-- The rune and width that a `range` loop reads at the head of a non-empty string:
a valid shortest-form UTF-8 sequence, or `RuneError` with width 1. -/
def decodeRune : GoString → Nat × Nat
  | [] => (RuneError, 0)
  | b0 :: rest =>
    if b0.val < 0x80 then (b0.val, 1)
    else if 0xC2 ≤ b0.val && b0.val ≤ 0xDF then
      match rest with
      | b1 :: _ =>
        if isCont b1 then (((b0.val &&& 0x1F) <<< 6) ||| (b1.val &&& 0x3F), 2)
        else (RuneError, 1)
      | _ => (RuneError, 1)
    else if 0xE0 ≤ b0.val && b0.val ≤ 0xEF then
      match rest with
      | b1 :: b2 :: _ =>
        if (if b0.val = 0xE0 then 0xA0 else 0x80) ≤ b1.val &&
            b1.val ≤ (if b0.val = 0xED then 0x9F else 0xBF) && isCont b2 then
          (((b0.val &&& 0x0F) <<< 12) ||| ((b1.val &&& 0x3F) <<< 6) ||| (b2.val &&& 0x3F), 3)
        else (RuneError, 1)
      | _ => (RuneError, 1)
    else if 0xF0 ≤ b0.val && b0.val ≤ 0xF4 then
      match rest with
      | b1 :: b2 :: b3 :: _ =>
        if (if b0.val = 0xF0 then 0x90 else 0x80) ≤ b1.val &&
            b1.val ≤ (if b0.val = 0xF4 then 0x8F else 0xBF) && isCont b2 && isCont b3 then
          (((b0.val &&& 0x07) <<< 18) ||| ((b1.val &&& 0x3F) <<< 12) |||
            ((b2.val &&& 0x3F) <<< 6) ||| (b3.val &&& 0x3F), 4)
        else (RuneError, 1)
      | _ => (RuneError, 1)
    else (RuneError, 1)

/-- The runes a `for _, ch := range s` loop visits; `skip` counts the bytes of the
current rune still to be passed over. -/
def rangeRunes : Nat → GoString → List Nat
  | _, [] => []
  | skip + 1, _ :: rest => rangeRunes skip rest
  | 0, b :: rest => (decodeRune (b :: rest)).1 :: rangeRunes ((decodeRune (b :: rest)).2 - 1) rest

/-- The loop of `Validate`: it returns `false` at the first rune that is not a valid
character and `true` when the string is exhausted. -/
def validateLoop : Nat → GoString → Bool
  | _, [] => true
  | skip + 1, _ :: rest => validateLoop skip rest
  | 0, b :: rest =>
    if !isValidChar (decodeRune (b :: rest)).1 then false
    else validateLoop ((decodeRune (b :: rest)).2 - 1) rest

/-- The function `Validate` of `shortener.go`. -/
def Validate (shortCode : GoString) : Bool :=
  if shortCode.length != ShortURLLength then false
  else validateLoop 0 shortCode

/-! ## `internal/repository` -/

/-- A Go `error` value. `Error.new ident text` is the value that one evaluation of
`errors.New(text)` returns: Go compares such values by identity and never by text, and
`ident` is that identity, so two errors with the same text and different identities are
different errors. `Error.wrap format err` is `fmt.Errorf(format, err)` with a `%w`
verb. -/
inductive Error where
  | new (ident : Nat) (text : String) : Error
  | wrap (format : String) (err : Error) : Error
deriving DecidableEq, Repr

/-- The sentinel `repository.ErrNotFound`. -/
def ErrNotFound : Error := Error.new 1 "URL not found"

/-- The sentinel `repository.ErrAlreadyExists`. -/
def ErrAlreadyExists : Error := Error.new 2 "short code already exists"

/-- The sentinel `repository.ErrDuplicate`. -/
def ErrDuplicate : Error := Error.new 3 "URL already shortened"

/-- The sentinel `service.ErrInvalidURL`. -/
def ErrInvalidURL : Error := Error.new 4 "invalid URL format"

/-- The function `errors.Is`: `target` is `err` or one of the errors that `err` wraps. -/
def errorsIs : Error → Error → Bool
  | Error.new ident text, target => decide (Error.new ident text = target)
  | Error.wrap format err, target => decide (Error.wrap format err = target) || errorsIs err target

/-- The interface `URLRepository` over a store state `σ`: every method receives the
state and returns its result with the state it leaves. -/
structure URLRepository (σ : Type) where
  Save : σ → GoString → GoString → Except Error Unit × σ
  Get : σ → GoString → Except Error GoString × σ
  GetByOriginal : σ → GoString → Except Error GoString × σ

/-- A call made on a repository. -/
inductive Call where
  | save (shortCode originalURL : GoString) : Call
  | get (shortCode : GoString) : Call
  | getByOriginal (originalURL : GoString) : Call
deriving DecidableEq, Repr

/-- A repository that records, next to its state, every call made on it. -/
def URLRepository.traced {σ : Type} (r : URLRepository σ) : URLRepository (σ × List Call) where
  Save := fun st shortCode originalURL =>
    ((r.Save st.1 shortCode originalURL).1,
      ((r.Save st.1 shortCode originalURL).2, st.2 ++ [Call.save shortCode originalURL]))
  Get := fun st shortCode =>
    ((r.Get st.1 shortCode).1, ((r.Get st.1 shortCode).2, st.2 ++ [Call.get shortCode]))
  GetByOriginal := fun st originalURL =>
    ((r.GetByOriginal st.1 originalURL).1,
      ((r.GetByOriginal st.1 originalURL).2, st.2 ++ [Call.getByOriginal originalURL]))

/-! ## `internal/repository/memory` -/

/-- A Go `map[string]string`: a lookup that is defined on the keys present. -/
abbrev GoMap := GoString → Option GoString

/-- The assignment `m[k] = v`. -/
def GoMap.set (m : GoMap) (k v : GoString) : GoMap :=
  fun k' => if k' = k then some v else m k'

/-- The struct `MemoryRepository` (its mutex is held for the whole of every method,
so a method is one step on the two maps). -/
structure MemoryRepository where
  shortToOriginal : GoMap
  originalToShort : GoMap

/-- The constructor `NewMemoryRepository`: both maps empty. -/
def NewMemoryRepository : MemoryRepository :=
  { shortToOriginal := fun _ => none, originalToShort := fun _ => none }

/-- The method `MemoryRepository.Save`. -/
def MemoryRepository.Save (r : MemoryRepository) (shortCode originalURL : GoString) :
    Except Error Unit × MemoryRepository :=
  match r.shortToOriginal shortCode with
  | some existingURL =>
    if existingURL = originalURL then (Except.ok (), r)
    else (Except.error ErrAlreadyExists, r)
  | none =>
    match r.originalToShort originalURL with
    | some existingShort =>
      if existingShort ≠ shortCode then (Except.error ErrDuplicate, r)
      else (Except.ok (), r)
    | none =>
      (Except.ok (),
        { shortToOriginal := r.shortToOriginal.set shortCode originalURL,
          originalToShort := r.originalToShort.set originalURL shortCode })

/-- The method `MemoryRepository.Get`. -/
def MemoryRepository.Get (r : MemoryRepository) (shortCode : GoString) : Except Error GoString :=
  match r.shortToOriginal shortCode with
  | none => Except.error ErrNotFound
  | some originalURL => Except.ok originalURL

/-- The method `MemoryRepository.GetByOriginal`. -/
def MemoryRepository.GetByOriginal (r : MemoryRepository) (originalURL : GoString) :
    Except Error GoString :=
  match r.originalToShort originalURL with
  | none => Except.error ErrNotFound
  | some shortCode => Except.ok shortCode

/-- The method `MemoryRepository.Clear`: both maps are replaced by empty ones. -/
def MemoryRepository.Clear (_r : MemoryRepository) : MemoryRepository :=
  { shortToOriginal := fun _ => none, originalToShort := fun _ => none }

/-- The in-memory store as a `URLRepository`; the two lookups leave the state as it is. -/
def MemoryRepository.repo : URLRepository MemoryRepository where
  Save := MemoryRepository.Save
  Get := fun r shortCode => (r.Get shortCode, r)
  GetByOriginal := fun r originalURL => (r.GetByOriginal originalURL, r)

/-- The states of the in-memory store reachable from `NewMemoryRepository` by `Save` and
`Clear` calls. -/
inductive Reachable : MemoryRepository → Prop where
  | init : Reachable NewMemoryRepository
  | save (r : MemoryRepository) (shortCode originalURL : GoString) :
      Reachable r → Reachable (r.Save shortCode originalURL).2
  | clear (r : MemoryRepository) : Reachable r → Reachable r.Clear

/-! ## `internal/service` -/

/-- The fields of a parsed `url.URL` that the service reads. -/
structure URL where
  Scheme : GoString
  Host : GoString
deriving DecidableEq, Repr

/-- The struct `URLService`. -/
structure URLService (σ : Type) where
  repo : URLRepository σ

/-- The method `URLService.validateURL`; `Parse` stands for `url.Parse`, which returns a
parsed URL or fails. -/
def validateURL (Parse : GoString → Option URL) (urlStr : GoString) : Except Error Unit :=
  if urlStr = [] then Except.error ErrInvalidURL
  else
    match Parse urlStr with
    | none => Except.error ErrInvalidURL
    | some parsedURL =>
      if parsedURL.Scheme ≠ str "http" ∧ parsedURL.Scheme ≠ str "https" then
        Except.error ErrInvalidURL
      else if parsedURL.Host = [] then Except.error ErrInvalidURL
      else Except.ok ()

/-- The method `URLService.Create`. -/
def URLService.Create {σ : Type} (Parse : GoString → Option URL) (s : URLService σ) (st : σ)
    (originalURL : GoString) : Except Error GoString × σ :=
  match validateURL Parse originalURL with
  | Except.error err => (Except.error err, st)
  | Except.ok () =>
    match s.repo.GetByOriginal st originalURL with
    | (Except.ok existingShort, st1) => (Except.ok existingShort, st1)
    | (Except.error err, st1) =>
      if !errorsIs err ErrNotFound then
        (Except.error (Error.wrap "failed to check existing URL: %w" err), st1)
      else
        match s.repo.Save st1 (Generate originalURL) originalURL with
        | (Except.error err, st2) =>
          if errorsIs err ErrAlreadyExists then
            (Except.error (Error.wrap "short code collision detected: %w" err), st2)
          else (Except.error (Error.wrap "failed to save URL: %w" err), st2)
        | (Except.ok (), st2) => (Except.ok (Generate originalURL), st2)

/-- The method `URLService.Resolve`. -/
def URLService.Resolve {σ : Type} (s : URLService σ) (st : σ) (shortCode : GoString) :
    Except Error GoString × σ :=
  if !Validate shortCode then (Except.error ErrNotFound, st)
  else
    match s.repo.Get st shortCode with
    | (Except.error err, st1) => (Except.error err, st1)
    | (Except.ok originalURL, st1) => (Except.ok originalURL, st1)

/-- The service built by `NewURLService(memory.NewMemoryRepository())`. -/
def memoryService : URLService MemoryRepository := { repo := MemoryRepository.repo }

/-- A service whose repository records the calls made on it. -/
def URLService.traced {σ : Type} (s : URLService σ) : URLService (σ × List Call) :=
  { repo := s.repo.traced }

/-- The states of the in-memory store reachable from `NewMemoryRepository` by `Create`
calls of the service alone. -/
inductive CreateReachable (Parse : GoString → Option URL) : MemoryRepository → Prop where
  | init : CreateReachable Parse NewMemoryRepository
  | create (r : MemoryRepository) (originalURL : GoString) :
      CreateReachable Parse r →
      CreateReachable Parse (memoryService.Create Parse r originalURL).2

/-- A small stand-in for `url.Parse`, used only to run the service on concrete inputs:
the scheme is what precedes a first `://`, the host is what follows it up to the next
`/`, and a string without `://` has neither. -/
def sampleParse (u : GoString) : Option URL :=
  let scheme := u.takeWhile fun b => b != 58
  match u.drop scheme.length with
  | 58 :: 47 :: 47 :: auth => some { Scheme := scheme, Host := auth.takeWhile fun b => b != 47 }
  | _ => some { Scheme := [], Host := [] }

/-! ## The in-memory store -/

/-- The two indexes agree: the code index maps `c` to `u` exactly when the URL index
maps `u` to `c`. -/
def Consistent (r : MemoryRepository) : Prop :=
  ∀ c u : GoString, r.shortToOriginal c = some u ↔ r.originalToShort u = some c


/-- Every stored code is the generated code of its URL. -/
def Generated (r : MemoryRepository) : Prop :=
  ∀ c u : GoString, r.shortToOriginal c = some u → c = Generate u

/-- The code as the specification words it: the SHA-256 digest of the URL bytes, in
unpadded URL-safe base64, with every `-` replaced by `_`, cut to its first 10
characters. -/
def specGenerate (url : GoString) : GoString :=
  ((base64.EncodeToString (sha256.Sum256 url)).map fun b =>
    if b = Fin.ofNat '-'.toNat then Fin.ofNat '_'.toNat else b).take 10

/-- The constant `base62Chars` of `shortener.go`. -/
def base62Chars : GoString :=
  str "abcdefghijklmnopqrstuvwxyzABCDEFGHIJKLMNOPQRSTUVWXYZ0123456789_"

/-- A sequence of `Save` calls on the in-memory store, each given by its two arguments;
the results are dropped and the final state is returned. -/
def MemoryRepository.saveAll (r : MemoryRepository) : List (GoString × GoString) → MemoryRepository
  | [] => r
  | call :: calls => (r.Save call.1 call.2).2.saveAll calls

/-- A repository that has lost a race on every URL: each `GetByOriginal` reports
`ErrNotFound` and each `Save` reports `ErrDuplicate`. -/
def racingRepo : URLRepository Unit where
  Save := fun st _ _ => (Except.error ErrDuplicate, st)
  Get := fun st _ => (Except.error ErrNotFound, st)
  GetByOriginal := fun st _ => (Except.error ErrNotFound, st)

/-! ## `internal/handler` -/

/-- The value handed to `sendJSON`: a `ShortenResponse` or an `ErrorResponse`. -/
inductive Payload where
  | ShortenResponse (ShortURL : GoString) : Payload
  | ErrorResponse (Error : String) : Payload
deriving DecidableEq, Repr

/-- What a handler writes: the JSON value and status code given to `sendJSON`, or the
`Location` header and status code that `http.Redirect` writes. -/
inductive Response where
  | sendJSON (data : Payload) (statusCode : Nat) : Response
  | Redirect (Location : GoString) (code : Nat) : Response
deriving DecidableEq, Repr

/-- A hexadecimal digit in lower case, as `strconv.AppendInt` in base 16 writes it. -/
def hexDigit (d : Nat) : Byte := if d < 10 then Fin.ofNat (48 + d) else Fin.ofNat (87 + d)

/-- The function `hexEscapeNonASCII` of `net/http`: every byte from `0x80` on is replaced
by `%` and its two hexadecimal digits, every other byte is kept. -/
def hexEscapeNonASCII (s : GoString) : GoString :=
  s.flatMap fun b => if b.val ≥ 0x80 then [37, hexDigit (b.val / 16), hexDigit (b.val % 16)] else [b]

/-- The call `http.Redirect(w, r, url, code)`: a target that parses without scheme and
without host is relative and is first made absolute against the request path, which
`absolutize` stands for; the `Location` header is the target with its non-ASCII bytes
escaped. -/
def httpRedirect (Parse : GoString → Option URL) (absolutize : GoString → GoString → GoString)
    (requestPath url : GoString) (code : Nat) : Response :=
  match Parse url with
  | some u =>
    if u.Scheme = [] ∧ u.Host = [] then
      Response.Redirect (hexEscapeNonASCII (absolutize requestPath url)) code
    else Response.Redirect (hexEscapeNonASCII url) code
  | none => Response.Redirect (hexEscapeNonASCII url) code

/-- The method `sendError`. -/
def sendError (message : String) (statusCode : Nat) : Response :=
  Response.sendJSON (Payload.ErrorResponse message) statusCode

/-- The function `strings.TrimSuffix`. -/
def TrimSuffix (s suffix : GoString) : GoString :=
  if suffix.isSuffixOf s then s.take (s.length - suffix.length) else s

/-- The function `strings.TrimPrefix`. -/
def TrimPrefix (s pre : GoString) : GoString :=
  if pre.isPrefixOf s then s.drop pre.length else s

/-- The struct `ShortenRequest`. -/
structure ShortenRequest where
  URL : GoString
deriving DecidableEq, Repr

/-- The struct `URLHandler`. -/
structure URLHandler (σ : Type) where
  service : URLService σ
  baseURL : GoString

/-- The constructor `NewURLHandler`. -/
def NewURLHandler {σ : Type} (service : URLService σ) (baseURL : GoString) : URLHandler σ :=
  { service := service, baseURL := TrimSuffix baseURL (str "/") }

/-- The handler `URLHandler.Shorten`, on the request method and the outcome of decoding
the request body (`none` when `Decode` fails). -/
def URLHandler.Shorten {σ : Type} (Parse : GoString → Option URL) (h : URLHandler σ) (st : σ)
    (method : GoString) (body : Option ShortenRequest) : Response × σ :=
  if method ≠ str "POST" then (sendError "method not allowed" 405, st)
  else
    match body with
    | none => (sendError "invalid request body" 400, st)
    | some req =>
      if req.URL = [] then (sendError "url is required" 400, st)
      else
        match h.service.Create Parse st req.URL with
        | (Except.error err, st1) =>
          if errorsIs err ErrInvalidURL then (sendError "invalid URL format" 400, st1)
          else (sendError "failed to create short URL" 500, st1)
        | (Except.ok shortCode, st1) =>
          (Response.sendJSON (Payload.ShortenResponse (h.baseURL ++ str "/" ++ shortCode)) 201,
            st1)

/-- The handler `URLHandler.Redirect`, on the request method and `r.URL.Path`. -/
def URLHandler.Redirect {σ : Type} (Parse : GoString → Option URL)
    (absolutize : GoString → GoString → GoString) (h : URLHandler σ) (st : σ)
    (method : GoString) (urlPath : GoString) : Response × σ :=
  if method ≠ str "GET" then (sendError "method not allowed" 405, st)
  else
    if TrimPrefix urlPath (str "/") = [] then (sendError "short code is required" 400, st)
    else
      match h.service.Resolve st (TrimPrefix urlPath (str "/")) with
      | (Except.error err, st1) =>
        if errorsIs err ErrNotFound then (sendError "short URL not found" 404, st1)
        else (sendError "failed to resolve short URL" 500, st1)
      | (Except.ok originalURL, st1) =>
        (httpRedirect Parse absolutize urlPath originalURL 302, st1)

/-! ## `internal/repository/postgres` -/

/-- The sentinel `sql.ErrNoRows`: what `Row.Scan` returns when a query selects no row. -/
def sqlErrNoRows : Error := Error.new 5 "sql: no rows in result set"

/-- The error of the driver for an insertion that violates a unique constraint. -/
def uniqueViolation : Error :=
  Error.new 6 "pq: duplicate key value violates unique constraint"

/-- The table `urls` of `InitSchema`, as its rows `(short_code, original_url)`. -/
abbrev Table := List (GoString × GoString)

/-- The statement of `Save`, `INSERT ... ON CONFLICT (short_code) DO NOTHING`, run by
`ExecContext` on a table with unique constraints on both columns: a row with the same
code makes it do nothing (no row affected, no error); otherwise a row with the same URL
makes it fail with a unique violation; otherwise the row is inserted. -/
def execInsert (t : Table) (shortCode originalURL : GoString) : Except Error Nat × Table :=
  if t.any (fun row => row.1 = shortCode) then (Except.ok 0, t)
  else if t.any (fun row => row.2 = originalURL) then (Except.error uniqueViolation, t)
  else (Except.ok 1, t ++ [(shortCode, originalURL)])

/-- The query of `Get`, `SELECT original_url FROM urls WHERE short_code = $1`, scanned
into one string. -/
def queryOriginal (t : Table) (shortCode : GoString) : Except Error GoString :=
  match t.find? (fun row => row.1 = shortCode) with
  | some row => Except.ok row.2
  | none => Except.error sqlErrNoRows

/-- The query of `GetByOriginal`, `SELECT short_code FROM urls WHERE original_url = $1`,
scanned into one string. -/
def queryShort (t : Table) (originalURL : GoString) : Except Error GoString :=
  match t.find? (fun row => row.2 = originalURL) with
  | some row => Except.ok row.1
  | none => Except.error sqlErrNoRows

/-- The method `PostgresRepository.Get`. -/
def PostgresRepository.Get (t : Table) (shortCode : GoString) : Except Error GoString :=
  match queryOriginal t shortCode with
  | Except.error err =>
    if errorsIs err sqlErrNoRows then Except.error ErrNotFound
    else Except.error (Error.wrap "failed to get URL: %w" err)
  | Except.ok originalURL => Except.ok originalURL

/-- The method `PostgresRepository.GetByOriginal`. -/
def PostgresRepository.GetByOriginal (t : Table) (originalURL : GoString) :
    Except Error GoString :=
  match queryShort t originalURL with
  | Except.error err =>
    if errorsIs err sqlErrNoRows then Except.error ErrNotFound
    else Except.error (Error.wrap "failed to get short code: %w" err)
  | Except.ok shortCode => Except.ok shortCode

/-- The method `PostgresRepository.Save` (the driver's `RowsAffected` does not fail). -/
def PostgresRepository.Save (t : Table) (shortCode originalURL : GoString) :
    Except Error Unit × Table :=
  match execInsert t shortCode originalURL with
  | (Except.error err, t1) =>
    if errorsIs err sqlErrNoRows then (Except.error ErrDuplicate, t1)
    else (Except.error (Error.wrap "failed to save URL: %w" err), t1)
  | (Except.ok rowsAffected, t1) =>
    if rowsAffected = 0 then
      match PostgresRepository.Get t1 shortCode with
      | Except.error err => (Except.error (Error.wrap "failed to check existing URL: %w" err), t1)
      | Except.ok existingURL =>
        if existingURL ≠ originalURL then (Except.error ErrAlreadyExists, t1)
        else (Except.ok (), t1)
    else (Except.ok (), t1)

/-- The persistent store as a `URLRepository`. -/
def PostgresRepository.repo : URLRepository Table where
  Save := PostgresRepository.Save
  Get := fun t shortCode => (PostgresRepository.Get t shortCode, t)
  GetByOriginal := fun t originalURL => (PostgresRepository.GetByOriginal t originalURL, t)

/-- The in-memory store holding the rows of a table: each index returns the first row
that matches. -/
def Table.toMemory (t : Table) : MemoryRepository :=
  { shortToOriginal := fun c => (t.find? (fun row => row.1 = c)).map fun row => row.2,
    originalToShort := fun u => (t.find? (fun row => row.2 = u)).map fun row => row.1 }

/-- A repository whose storage cannot be reached: every method fails with the same
connection error. -/
def brokenRepo : URLRepository Unit where
  Save := fun st _ _ => (Except.error (Error.new 7 "connection refused"), st)
  Get := fun st _ => (Except.error (Error.new 7 "connection refused"), st)
  GetByOriginal := fun st _ => (Except.error (Error.new 7 "connection refused"), st)

/-- A repository with an error of its own, made by `errors.New("URL not found")`: it has
the text of `ErrNotFound` and is not `ErrNotFound`. Every method fails with it. -/
def lookalikeRepo : URLRepository Unit where
  Save := fun st _ _ => (Except.error (Error.new 8 "URL not found"), st)
  Get := fun st _ => (Except.error (Error.new 8 "URL not found"), st)
  GetByOriginal := fun st _ => (Except.error (Error.new 8 "URL not found"), st)

/-- The steps of `Generate` that follow the digest: the encoding, the replacement of
`-` by `_` and the truncation. -/
def codeOfDigest (hash : GoString) : GoString :=
  let encoded := base64.EncodeToString hash
  let encoded := ReplaceAll encoded 45 95
  if encoded.length > ShortURLLength then encoded.take ShortURLLength else encoded

/-! ## Concurrent `Create` calls on one in-memory store

Every method of the store holds its mutex from entry to return, so a method is one
atomic step on the two maps; a `Create` call is two such steps, `GetByOriginal` and
`Save`, and between them other goroutines may run. -/

/-- A `Create` call in flight: about to validate and call `GetByOriginal`, about to call
`Save` after `GetByOriginal` reported `ErrNotFound`, or returned. -/
inductive CreateCall where
  | lookup (originalURL : GoString) : CreateCall
  | store (originalURL : GoString) : CreateCall
  | returned (result : Except Error GoString) : CreateCall

/-- The next atomic step of a `Create` call on the in-memory store: the code of
`URLService.Create` up to and including its next repository call. -/
def CreateCall.step (Parse : GoString → Option URL) (r : MemoryRepository) :
    CreateCall → CreateCall × MemoryRepository
  | CreateCall.lookup originalURL =>
    match validateURL Parse originalURL with
    | Except.error err => (CreateCall.returned (Except.error err), r)
    | Except.ok () =>
      match memoryService.repo.GetByOriginal r originalURL with
      | (Except.ok existingShort, r1) => (CreateCall.returned (Except.ok existingShort), r1)
      | (Except.error err, r1) =>
        if !errorsIs err ErrNotFound then
          (CreateCall.returned
            (Except.error (Error.wrap "failed to check existing URL: %w" err)), r1)
        else (CreateCall.store originalURL, r1)
  | CreateCall.store originalURL =>
    match memoryService.repo.Save r (Generate originalURL) originalURL with
    | (Except.error err, r2) =>
      if errorsIs err ErrAlreadyExists then
        (CreateCall.returned
          (Except.error (Error.wrap "short code collision detected: %w" err)), r2)
      else (CreateCall.returned (Except.error (Error.wrap "failed to save URL: %w" err)), r2)
    | (Except.ok (), r2) => (CreateCall.returned (Except.ok (Generate originalURL)), r2)
  | CreateCall.returned result => (CreateCall.returned result, r)

/-- The `Save` call that the next step of a `Create` call makes, if it makes one. -/
def CreateCall.saveArgs : CreateCall → List (GoString × GoString)
  | CreateCall.store originalURL => [(Generate originalURL, originalURL)]
  | _ => []

/-- The in-memory store shared by `n` concurrent `Create` calls, with the `Save` calls
made so far, in the order in which they took the lock. -/
structure Concurrent (n : Nat) where
  store : MemoryRepository
  calls : Fin n → CreateCall
  saves : List (GoString × GoString)

/-- The scheduler lets call `i` make its next atomic step. -/
def Concurrent.step {n : Nat} (Parse : GoString → Option URL) (s : Concurrent n) (i : Fin n) :
    Concurrent n :=
  { store := ((s.calls i).step Parse s.store).2,
    calls := Function.update s.calls i ((s.calls i).step Parse s.store).1,
    saves := s.saves ++ (s.calls i).saveArgs }

/-- An interleaving: the calls are stepped in the order of the schedule. -/
def Concurrent.run {n : Nat} (Parse : GoString → Option URL) (s : Concurrent n) :
    List (Fin n) → Concurrent n
  | [] => s
  | i :: rest => (s.step Parse i).run Parse rest

/-- The `n` calls `Create(urls i)` issued together on the empty store. -/
def Concurrent.start {n : Nat} (urls : Fin n → GoString) : Concurrent n :=
  { store := NewMemoryRepository, calls := fun i => CreateCall.lookup (urls i), saves := [] }

/-- The invariant of an interleaving of the calls `Create(urls i)`, where `k i` counts
the steps call `i` has made: the indexes agree, the stored pairs are those of the
calls that have made both steps, and each call is where its step count says. -/
def Concurrent.Inv {n : Nat} (urls : Fin n → GoString) (s : Concurrent n) (k : Fin n → Nat) :
    Prop :=
  Consistent s.store ∧
  (∀ c u : GoString, s.store.shortToOriginal c = some u →
    ∃ i, 2 ≤ k i ∧ c = Generate (urls i) ∧ u = urls i) ∧
  (∀ i, (k i = 0 → s.calls i = CreateCall.lookup (urls i)) ∧
    (k i = 1 → s.calls i = CreateCall.store (urls i)) ∧
    (2 ≤ k i → s.calls i = CreateCall.returned (Except.ok (Generate (urls i))) ∧
      s.store.shortToOriginal (Generate (urls i)) = some (urls i)))

/-! ## Properties of the in-memory store -/

theorem GoMap.set_same (m : GoMap) (k v : GoString) : m.set k v k = some v := by
  simp [GoMap.set]

theorem GoMap.set_other (m : GoMap) (k v k' : GoString) (h : k' ≠ k) : m.set k v k' = m k' := by
  simp [GoMap.set, h]

theorem sentinels_distinct :
    ErrAlreadyExists ≠ ErrDuplicate ∧ ErrNotFound ≠ ErrAlreadyExists ∧
      ErrNotFound ≠ ErrDuplicate ∧ ErrInvalidURL ≠ ErrNotFound ∧
      ErrInvalidURL ≠ ErrAlreadyExists ∧ ErrInvalidURL ≠ ErrDuplicate := by
  decide

/-- The three-way case analysis of `Save`, as equations. -/
theorem Save_cases (r : MemoryRepository) (code url : GoString) :
    (∃ u', r.shortToOriginal code = some u' ∧ u' = url ∧ r.Save code url = (Except.ok (), r)) ∨
    (∃ u', r.shortToOriginal code = some u' ∧ u' ≠ url ∧
      r.Save code url = (Except.error ErrAlreadyExists, r)) ∨
    (r.shortToOriginal code = none ∧ ∃ c', r.originalToShort url = some c' ∧ c' ≠ code ∧
      r.Save code url = (Except.error ErrDuplicate, r)) ∨
    (r.shortToOriginal code = none ∧ r.originalToShort url = some code ∧
      r.Save code url = (Except.ok (), r)) ∨
    (r.shortToOriginal code = none ∧ r.originalToShort url = none ∧
      r.Save code url = (Except.ok (),
        { shortToOriginal := r.shortToOriginal.set code url,
          originalToShort := r.originalToShort.set url code })) := by
  unfold MemoryRepository.Save
  cases h1 : r.shortToOriginal code with
  | some u' =>
    by_cases h : u' = url
    · left; exact ⟨u', rfl, h, by simp [h]⟩
    · right; left; exact ⟨u', rfl, h, by simp [h]⟩
  | none =>
    cases h2 : r.originalToShort url with
    | some c' =>
      by_cases h : c' = code
      · right; right; right; left; exact ⟨rfl, by rw [h], by simp [h]⟩
      · right; right; left; exact ⟨rfl, c', rfl, h, by simp [h]⟩
    | none =>
      right; right; right; right; exact ⟨rfl, rfl, rfl⟩

theorem consistent_new : Consistent NewMemoryRepository := by
  intro c u; simp [NewMemoryRepository]

theorem consistent_save (r : MemoryRepository) (code url : GoString) (h : Consistent r) :
    Consistent (r.Save code url).2 := by
  rcases Save_cases r code url with ⟨_, _, _, e⟩ | ⟨_, _, _, e⟩ | ⟨_, _, _, _, e⟩ | ⟨_, _, e⟩ |
    ⟨h1, h2, e⟩
  · rw [e]; exact h
  · rw [e]; exact h
  · rw [e]; exact h
  · rw [e]; exact h
  · rw [e]
    intro c u
    show r.shortToOriginal.set code url c = some u ↔ r.originalToShort.set url code u = some c
    by_cases hc : c = code
    · by_cases hu : u = url
      · subst hc; subst hu; simp [GoMap.set]
      · subst hc
        rw [GoMap.set_same, GoMap.set_other _ _ _ _ hu]
        constructor
        · intro h3; exact absurd (Option.some.inj h3).symm hu
        · intro h3; rw [← h c u, h1] at h3; exact absurd h3 (by simp)
    · by_cases hu : u = url
      · subst hu
        rw [GoMap.set_same, GoMap.set_other _ _ _ _ hc]
        constructor
        · intro h3; rw [h c u, h2] at h3; exact absurd h3 (by simp)
        · intro h3; exact absurd (Option.some.inj h3).symm hc
      · rw [GoMap.set_other _ _ _ _ hc, GoMap.set_other _ _ _ _ hu]
        exact h c u

theorem reachable_consistent (r : MemoryRepository) (h : Reachable r) : Consistent r := by
  induction h with
  | init => exact consistent_new
  | save r code url _ ih => exact consistent_save r code url ih
  | clear r _ _ => exact consistent_new

/-- C1. For every state of the in-memory store and every pair `(code, url)`, `Save`
returns `ErrAlreadyExists` exactly when `code` is mapped to a URL different from `url`
(whatever the URL index holds), `ErrDuplicate` exactly when `code` is unmapped and `url`
is mapped to a code different from `code`, and success in every other case. -/
theorem Save_result (r : MemoryRepository) (code url : GoString) :
    ((r.Save code url).1 = Except.error ErrAlreadyExists ↔
      ∃ u', r.shortToOriginal code = some u' ∧ u' ≠ url) ∧
    ((r.Save code url).1 = Except.error ErrDuplicate ↔
      r.shortToOriginal code = none ∧ ∃ c', r.originalToShort url = some c' ∧ c' ≠ code) ∧
    ((r.Save code url).1 = Except.ok () ↔
      ¬ (∃ u', r.shortToOriginal code = some u' ∧ u' ≠ url) ∧
      ¬ (r.shortToOriginal code = none ∧ ∃ c', r.originalToShort url = some c' ∧ c' ≠ code)) := by
  have hd := sentinels_distinct.1
  rcases Save_cases r code url with ⟨u', h1, h2, e⟩ | ⟨u', h1, h2, e⟩ | ⟨h1, c', h2, h3, e⟩ |
    ⟨h1, h2, e⟩ | ⟨h1, h2, e⟩
  · rw [e]; subst h2
    simp [h1]
  · rw [e]
    simp [h1, h2, hd]
  · rw [e]
    simp [h1, h2, h3, hd.symm]
  · rw [e]
    simp [h1, h2]
  · rw [e]
    simp [h1, h2]

/-- The three outcomes of `Save` on concrete stores: a collision, a duplicate and a
first insertion. -/
theorem Save_result_witness :
    ((NewMemoryRepository.Save (str "abc123XYZ_") (str "https://example.com/a")).2.Save
        (str "abc123XYZ_") (str "https://example.com/b")).1 = Except.error ErrAlreadyExists ∧
    ((NewMemoryRepository.Save (str "abc123XYZ_") (str "https://example.com/a")).2.Save
        (str "0123456789") (str "https://example.com/a")).1 = Except.error ErrDuplicate ∧
    (NewMemoryRepository.Save (str "abc123XYZ_") (str "https://example.com/a")).1 =
      Except.ok () :=
  ⟨(Save_result _ (str "abc123XYZ_") (str "https://example.com/b")).1.2
      ⟨str "https://example.com/a", by decide, by decide⟩,
    (Save_result _ (str "0123456789") (str "https://example.com/a")).2.1.2
      ⟨by decide, str "abc123XYZ_", by decide, by decide⟩,
    (Save_result NewMemoryRepository (str "abc123XYZ_") (str "https://example.com/a")).2.2.2
      ⟨by simp [NewMemoryRepository], by simp [NewMemoryRepository]⟩⟩

/-- C2. Bijection invariant: in every state reachable from the empty store by `Save` and
`Clear` calls the code index maps `c` to `u` if and only if the URL index maps `u` to
`c`; hence no two mappings share a code and no two share a URL. -/
theorem reachable_bijection (r : MemoryRepository) (h : Reachable r) :
    (∀ c u : GoString, r.shortToOriginal c = some u ↔ r.originalToShort u = some c) ∧
    (∀ c u₁ u₂ : GoString, r.shortToOriginal c = some u₁ → r.shortToOriginal c = some u₂ →
      u₁ = u₂) ∧
    (∀ c₁ c₂ u : GoString, r.shortToOriginal c₁ = some u → r.shortToOriginal c₂ = some u →
      c₁ = c₂) ∧
    (∀ u c₁ c₂ : GoString, r.originalToShort u = some c₁ → r.originalToShort u = some c₂ →
      c₁ = c₂) ∧
    (∀ u₁ u₂ c : GoString, r.originalToShort u₁ = some c → r.originalToShort u₂ = some c →
      u₁ = u₂) := by
  have hc := reachable_consistent r h
  refine ⟨hc, ?_, ?_, ?_, ?_⟩
  · intro c u₁ u₂ h1 h2; rw [h1] at h2; exact Option.some.inj h2
  · intro c₁ c₂ u h1 h2
    rw [hc] at h1 h2; rw [h1] at h2; exact Option.some.inj h2
  · intro u c₁ c₂ h1 h2; rw [h1] at h2; exact Option.some.inj h2
  · intro u₁ u₂ c h1 h2
    rw [← hc] at h1 h2; rw [h1] at h2; exact Option.some.inj h2

/-- A reachable state with two mappings, on which the bijection invariant is read off. -/
theorem reachable_bijection_witness :
    Reachable ((NewMemoryRepository.Save (str "abc123XYZ_") (str "https://example.com/test")).2.Save
        (str "0123456789") (str "https://example.com/other")).2 ∧
    ∀ c u : GoString,
      ((NewMemoryRepository.Save (str "abc123XYZ_") (str "https://example.com/test")).2.Save
        (str "0123456789") (str "https://example.com/other")).2.shortToOriginal c = some u ↔
      ((NewMemoryRepository.Save (str "abc123XYZ_") (str "https://example.com/test")).2.Save
        (str "0123456789") (str "https://example.com/other")).2.originalToShort u = some c :=
  ⟨Reachable.save _ _ _ (Reachable.save _ _ _ Reachable.init),
    (reachable_bijection _ (Reachable.save _ _ _ (Reachable.save _ _ _ Reachable.init))).1⟩


/-! ## Properties of `pkg/shortener` -/

theorem le_or_left (a b : Nat) : a ≤ a ||| b :=
  Nat.le_of_testBit (by intro i h; simp [Nat.testBit_or, h])

theorem le_or_right (a b : Nat) : b ≤ a ||| b :=
  Nat.le_of_testBit (by intro i h; simp [Nat.testBit_or, h])

/-- The accepted characters, as ranges of code points. -/
theorem isValidChar_iff (ch : Nat) :
    isValidChar ch = true ↔
      (97 ≤ ch ∧ ch ≤ 122) ∨ (65 ≤ ch ∧ ch ≤ 90) ∨ (48 ≤ ch ∧ ch ≤ 57) ∨ ch = 95 := by
  simp [isValidChar]
  omega

theorem isValidChar_high (ch : Nat) (h : 128 ≤ ch) : isValidChar ch = false := by
  cases hv : isValidChar ch with
  | false => rfl
  | true => rw [isValidChar_iff] at hv; omega

theorem decodeRune_ascii (b0 : Byte) (rest : GoString) (h : b0.val < 0x80) :
    decodeRune (b0 :: rest) = (b0.val, 1) := by
  simp [decodeRune, h]

set_option maxRecDepth 100000 in
theorem lead2 : ∀ b : Byte, 0xC2 ≤ b.val → b.val ≤ 0xDF → 2 ≤ b.val &&& 0x1F := by decide

set_option maxRecDepth 100000 in
theorem lead3 : ∀ b : Byte, 0xE1 ≤ b.val → b.val ≤ 0xEF → 1 ≤ b.val &&& 0x0F := by decide

set_option maxRecDepth 100000 in
theorem lead4 : ∀ b : Byte, 0xF1 ≤ b.val → b.val ≤ 0xF4 → 1 ≤ b.val &&& 0x07 := by decide

set_option maxRecDepth 100000 in
theorem second3 : ∀ b : Byte, 0xA0 ≤ b.val → b.val ≤ 0xBF → 32 ≤ b.val &&& 0x3F := by decide

set_option maxRecDepth 100000 in
theorem second4 : ∀ b : Byte, 0x90 ≤ b.val → b.val ≤ 0xBF → 16 ≤ b.val &&& 0x3F := by decide

theorem ite_rune (c : Prop) [Decidable c] (v n : Nat) (h : c → 128 ≤ v) :
    128 ≤ (if c then (v, n) else (RuneError, 1)).1 := by
  by_cases hc : c
  · simp [hc, h hc]
  · simp [hc, RuneError]

theorem decodeRune_high (b0 : Byte) (rest : GoString) (h : 0x80 ≤ b0.val) :
    128 ≤ (decodeRune (b0 :: rest)).1 := by
  simp only [decodeRune]
  rw [if_neg (by omega)]
  by_cases h2 : (decide (0xC2 ≤ b0.val) && decide (b0.val ≤ 0xDF)) = true
  · rw [if_pos h2]
    simp only [Bool.and_eq_true, decide_eq_true_eq] at h2
    have hl := lead2 b0 h2.1 h2.2
    cases rest with
    | nil => simp [RuneError]
    | cons b1 tl =>
      apply ite_rune
      intro _
      have := le_or_left ((b0.val &&& 0x1F) <<< 6) (b1.val &&& 0x3F)
      rw [Nat.shiftLeft_eq] at this ⊢
      omega
  · rw [if_neg h2]
    by_cases h3 : (decide (0xE0 ≤ b0.val) && decide (b0.val ≤ 0xEF)) = true
    · rw [if_pos h3]
      simp only [Bool.and_eq_true, decide_eq_true_eq] at h3
      rcases rest with _ | ⟨b1, _ | ⟨b2, tl⟩⟩
      · simp [RuneError]
      · simp [RuneError]
      · apply ite_rune
        intro hc
        simp only [Bool.and_eq_true, decide_eq_true_eq] at hc
        have e1 := le_or_left (((b0.val &&& 0x0F) <<< 12) ||| ((b1.val &&& 0x3F) <<< 6))
          (b2.val &&& 0x3F)
        have e2 := le_or_left ((b0.val &&& 0x0F) <<< 12) ((b1.val &&& 0x3F) <<< 6)
        have e3 := le_or_right ((b0.val &&& 0x0F) <<< 12) ((b1.val &&& 0x3F) <<< 6)
        have s1 : (b0.val &&& 0x0F) <<< 12 = (b0.val &&& 0x0F) * 2 ^ 12 := Nat.shiftLeft_eq _ _
        have s2 : (b1.val &&& 0x3F) <<< 6 = (b1.val &&& 0x3F) * 2 ^ 6 := Nat.shiftLeft_eq _ _
        by_cases h0 : b0.val = 0xE0
        · have hb1 := hc.1.1
          rw [if_pos h0] at hb1
          have hb1' := hc.1.2
          rw [if_neg (by omega)] at hb1'
          have := second3 b1 hb1 hb1'
          omega
        · have := lead3 b0 (by omega) h3.2
          omega
    · rw [if_neg h3]
      by_cases h4 : (decide (0xF0 ≤ b0.val) && decide (b0.val ≤ 0xF4)) = true
      · rw [if_pos h4]
        simp only [Bool.and_eq_true, decide_eq_true_eq] at h4
        rcases rest with _ | ⟨b1, _ | ⟨b2, _ | ⟨b3, tl⟩⟩⟩
        · simp [RuneError]
        · simp [RuneError]
        · simp [RuneError]
        · apply ite_rune
          intro hc
          simp only [Bool.and_eq_true, decide_eq_true_eq] at hc
          have e0 := le_or_left (((b0.val &&& 0x07) <<< 18) ||| ((b1.val &&& 0x3F) <<< 12) |||
            ((b2.val &&& 0x3F) <<< 6)) (b3.val &&& 0x3F)
          have e1 := le_or_left (((b0.val &&& 0x07) <<< 18) ||| ((b1.val &&& 0x3F) <<< 12))
            ((b2.val &&& 0x3F) <<< 6)
          have e2 := le_or_left ((b0.val &&& 0x07) <<< 18) ((b1.val &&& 0x3F) <<< 12)
          have e3 := le_or_right ((b0.val &&& 0x07) <<< 18) ((b1.val &&& 0x3F) <<< 12)
          have s1 : (b0.val &&& 0x07) <<< 18 = (b0.val &&& 0x07) * 2 ^ 18 := Nat.shiftLeft_eq _ _
          have s2 : (b1.val &&& 0x3F) <<< 12 = (b1.val &&& 0x3F) * 2 ^ 12 := Nat.shiftLeft_eq _ _
          by_cases h0 : b0.val = 0xF0
          · have hb1 := hc.1.1.1
            rw [if_pos h0] at hb1
            have hb1' := hc.1.1.2
            rw [if_neg (by omega)] at hb1'
            have := second4 b1 hb1 hb1'
            omega
          · have := lead4 b0 (by omega) h4.2
            omega
      · rw [if_neg h4]
        simp [RuneError]

theorem validateLoop_iff (s : GoString) :
    validateLoop 0 s = true ↔ ∀ b ∈ s, isValidChar b.val = true := by
  induction s with
  | nil => simp [validateLoop]
  | cons b rest ih =>
    by_cases hb : b.val < 0x80
    · simp [validateLoop, decodeRune_ascii b rest hb, ih]
    · have h1 := isValidChar_high _ (decodeRune_high b rest (by omega))
      have h2 := isValidChar_high b.val (by omega)
      simp [validateLoop, h1, h2]

theorem rangeRunes_valid_iff (s : GoString) :
    (∀ ch ∈ rangeRunes 0 s, isValidChar ch = true) ↔ ∀ b ∈ s, isValidChar b.val = true := by
  induction s with
  | nil => simp [rangeRunes]
  | cons b rest ih =>
    by_cases hb : b.val < 0x80
    · simp [rangeRunes, decodeRune_ascii b rest hb, ih]
    · have h1 := isValidChar_high _ (decodeRune_high b rest (by omega))
      have h2 := isValidChar_high b.val (by omega)
      simp [rangeRunes, h1, h2]

theorem Validate_eq_true_iff (c : GoString) :
    Validate c = true ↔ c.length = 10 ∧ ∀ b ∈ c, isValidChar b.val = true := by
  unfold Validate
  by_cases hl : c.length = 10
  · simp [hl, ShortURLLength, validateLoop_iff]
  · simp [hl, ShortURLLength]


/-- C5. `Validate c` is true if and only if `c` is exactly 10 bytes long and every
character of `c` (every rune the `range` loop reads, equivalently every byte) is a
lowercase ASCII letter, an uppercase ASCII letter, an ASCII digit or `_`; it is false
for every other length and for every string that contains `-`, `@` or a non-ASCII
byte. -/
theorem Validate_iff (c : GoString) :
    (Validate c = true ↔ c.length = 10 ∧ ∀ ch ∈ rangeRunes 0 c,
      (97 ≤ ch ∧ ch ≤ 122) ∨ (65 ≤ ch ∧ ch ≤ 90) ∨ (48 ≤ ch ∧ ch ≤ 57) ∨ ch = 95) ∧
    (Validate c = true ↔ c.length = 10 ∧ ∀ b ∈ c,
      (97 ≤ b.val ∧ b.val ≤ 122) ∨ (65 ≤ b.val ∧ b.val ≤ 90) ∨ (48 ≤ b.val ∧ b.val ≤ 57) ∨
        b.val = 95) ∧
    (c.length ≠ 10 → Validate c = false) ∧
    ((∃ b ∈ c, b.val = 45 ∨ b.val = 64 ∨ 128 ≤ b.val) → Validate c = false) := by
  have hb := Validate_eq_true_iff c
  refine ⟨?_, ?_, ?_, ?_⟩
  · rw [hb, ← rangeRunes_valid_iff]
    simp only [isValidChar_iff]
  · rw [hb]
    simp only [isValidChar_iff]
  · intro hl
    cases hv : Validate c with
    | false => rfl
    | true => exact absurd (hb.1 hv).1 hl
  · rintro ⟨b, hm, hbad⟩
    cases hv : Validate c with
    | false => rfl
    | true =>
      have := (isValidChar_iff b.val).1 ((hb.1 hv).2 b hm)
      omega

set_option maxRecDepth 100000 in
/-- The code of the store test is accepted; a code with `-` in it, a short one and one
with a two-byte character are rejected. -/
theorem Validate_iff_witness :
    Validate (str "abc123XYZ_") = true ∧ Validate (str "abc") = false ∧
      Validate (str "abc123XYZ-") = false ∧ Validate (str "abc12é3XY") = false :=
  ⟨(Validate_iff (str "abc123XYZ_")).2.1.2 (by decide),
    (Validate_iff (str "abc")).2.2.1 (by decide),
    (Validate_iff (str "abc123XYZ-")).2.2.2 ⟨45, by decide, by decide⟩,
    (Validate_iff (str "abc12é3XY")).2.2.2 ⟨0xC3, by decide, by decide⟩⟩

/-! ### `Generate` -/

theorem Sum256_length (data : GoString) : (sha256.Sum256 data).length = 32 := by
  simp [sha256.Sum256, sha256.be32]

theorem EncodeToString_length (s : GoString) :
    (base64.EncodeToString s).length = (4 * s.length + 2) / 3 := by
  induction s using base64.EncodeToString.induct with
  | case1 b0 b1 b2 rest ih =>
    simp only [base64.EncodeToString, List.length_cons, ih]
    omega
  | case2 b0 b1 => simp [base64.EncodeToString]
  | case3 b0 => simp [base64.EncodeToString]
  | case4 => simp [base64.EncodeToString]

set_option maxRecDepth 100000 in
theorem enc_replaced_valid :
    ∀ i : Fin 64, isValidChar (if base64.enc i.val = 45 then (95 : Byte) else base64.enc i.val).val
      = true := by
  decide

theorem enc_valid (n : Nat) :
    isValidChar (if base64.enc (n &&& 0x3F) = 45 then (95 : Byte) else base64.enc (n &&& 0x3F)).val
      = true :=
  enc_replaced_valid ⟨n &&& 0x3F, Nat.lt_succ_of_le Nat.and_le_right⟩

theorem EncodeToString_replaced_valid (s : GoString) :
    ∀ b ∈ ReplaceAll (base64.EncodeToString s) 45 95, isValidChar b.val = true := by
  unfold ReplaceAll
  induction s using base64.EncodeToString.induct with
  | case1 b0 b1 b2 rest ih =>
    simp only [base64.EncodeToString, List.map_cons, List.mem_cons]
    rintro b (h | h | h | h | h)
    · rw [h]; exact enc_valid _
    · rw [h]; exact enc_valid _
    · rw [h]; exact enc_valid _
    · rw [h]; exact enc_valid _
    · exact ih b h
  | case2 b0 b1 =>
    simp only [base64.EncodeToString, List.map_cons, List.mem_cons, List.map_nil]
    rintro b (h | h | h | h)
    · rw [h]; exact enc_valid _
    · rw [h]; exact enc_valid _
    · rw [h]; exact enc_valid _
    · exact absurd h (List.not_mem_nil _)
  | case3 b0 =>
    simp only [base64.EncodeToString, List.map_cons, List.mem_cons, List.map_nil]
    rintro b (h | h | h)
    · rw [h]; exact enc_valid _
    · rw [h]; exact enc_valid _
    · exact absurd h (List.not_mem_nil _)
  | case4 => simp [base64.EncodeToString]

theorem Generate_eq (u : GoString) :
    Generate u = (ReplaceAll (base64.EncodeToString (sha256.Sum256 u)) 45 95).take 10 := by
  have h : (ReplaceAll (base64.EncodeToString (sha256.Sum256 u)) 45 95).length = 43 := by
    simp [ReplaceAll, EncodeToString_length, Sum256_length]
  simp only [Generate, h, ShortURLLength]
  simp

theorem Generate_length (u : GoString) : (Generate u).length = 10 := by
  rw [Generate_eq]
  simp [ReplaceAll, EncodeToString_length, Sum256_length]

theorem Validate_Generate (u : GoString) : Validate (Generate u) = true := by
  rw [Validate_eq_true_iff]
  refine ⟨Generate_length u, ?_⟩
  intro b hb
  rw [Generate_eq] at hb
  exact EncodeToString_replaced_valid _ b (List.mem_of_mem_take hb)

/-- C6. For every input string `u`, the empty one included, `Generate u` has length
exactly 10 and `Validate (Generate u)` is true: the digest has 32 bytes, it encodes to
43 base64url characters, so the truncation always applies, and after `-` is replaced
by `_` every character is in the accepted alphabet. -/
theorem Generate_valid (u : GoString) :
    (Generate u).length = 10 ∧ Validate (Generate u) = true ∧
    (sha256.Sum256 u).length = 32 ∧
    (base64.EncodeToString (sha256.Sum256 u)).length = 43 ∧
    Generate u = (ReplaceAll (base64.EncodeToString (sha256.Sum256 u)) 45 95).take 10 ∧
    ∀ b ∈ ReplaceAll (base64.EncodeToString (sha256.Sum256 u)) 45 95,
      (97 ≤ b.val ∧ b.val ≤ 122) ∨ (65 ≤ b.val ∧ b.val ≤ 90) ∨ (48 ≤ b.val ∧ b.val ≤ 57) ∨
        b.val = 95 := by
  refine ⟨Generate_length u, Validate_Generate u, Sum256_length u, ?_, Generate_eq u, ?_⟩
  · simp [EncodeToString_length, Sum256_length]
  · intro b hb
    exact (isValidChar_iff b.val).1 (EncodeToString_replaced_valid _ b hb)


/-- The generated code of the empty string and of a test URL: ten accepted characters. -/
theorem Generate_valid_witness :
    ((Generate (str "")).length = 10 ∧ Validate (Generate (str "")) = true) ∧
    ((Generate (str "https://google.com")).length = 10 ∧
      Validate (Generate (str "https://google.com")) = true) :=
  ⟨⟨(Generate_valid (str "")).1, (Generate_valid (str "")).2.1⟩,
    ⟨(Generate_valid (str "https://google.com")).1, (Generate_valid (str "https://google.com")).2.1⟩⟩

/-! ## More on the in-memory store -/

/-- C9. State effect of `Save(code, url)` on the in-memory store: when it returns
`ErrAlreadyExists` or `ErrDuplicate`, or succeeds as a re-save of the existing mapping
`code → url`, both indexes are left exactly as they were (indeed whenever `code` or
`url` is already mapped); when neither is mapped it succeeds, adds `code → url` and
`url → code`, and changes the lookup of no other code and no other URL. -/
theorem Save_effect (r : MemoryRepository) (code url : GoString) :
    (((r.Save code url).1 = Except.error ErrAlreadyExists ∨
        (r.Save code url).1 = Except.error ErrDuplicate) → (r.Save code url).2 = r) ∧
    (r.shortToOriginal code = some url → r.Save code url = (Except.ok (), r)) ∧
    ((r.shortToOriginal code ≠ none ∨ r.originalToShort url ≠ none) →
      (r.Save code url).2 = r) ∧
    (r.shortToOriginal code = none → r.originalToShort url = none →
      (r.Save code url).1 = Except.ok () ∧
      (r.Save code url).2.shortToOriginal code = some url ∧
      (r.Save code url).2.originalToShort url = some code ∧
      (∀ c', c' ≠ code → (r.Save code url).2.shortToOriginal c' = r.shortToOriginal c') ∧
      (∀ u', u' ≠ url → (r.Save code url).2.originalToShort u' = r.originalToShort u')) := by
  have hd := sentinels_distinct.1
  rcases Save_cases r code url with ⟨u', h1, h2, e⟩ | ⟨u', h1, h2, e⟩ | ⟨h1, c', h2, h3, e⟩ |
    ⟨h1, h2, e⟩ | ⟨h1, h2, e⟩
  · rw [e]; subst h2
    simp [h1]
  · rw [e]
    simp [h1, h2]
  · rw [e]
    simp [h1, h2]
  · rw [e]
    simp [h1, h2]
  · rw [e]
    refine ⟨fun _ => ?_, fun h => ?_, fun h => ?_, fun _ _ => ⟨rfl, ?_, ?_, ?_, ?_⟩⟩
    · rcases ‹_ ∨ _› with h | h <;> simp at h
    · rw [h1] at h; simp at h
    · rcases h with h | h
      · exact absurd h1 h
      · exact absurd h2 h
    · exact GoMap.set_same _ _ _
    · exact GoMap.set_same _ _ _
    · intro c' hc; exact GoMap.set_other _ _ _ _ hc
    · intro u' hu; exact GoMap.set_other _ _ _ _ hu

/-- The branches of `Save` on concrete stores: a collision, a duplicate, a re-save, an
insertion, and a call on a mapped code. -/
theorem Save_effect_witness :
    ((NewMemoryRepository.Save (str "abc123XYZ_") (str "https://example.com/a")).2.Save
        (str "abc123XYZ_") (str "https://example.com/b")).2 =
      (NewMemoryRepository.Save (str "abc123XYZ_") (str "https://example.com/a")).2 ∧
    ((NewMemoryRepository.Save (str "abc123XYZ_") (str "https://example.com/a")).2.Save
        (str "0123456789") (str "https://example.com/a")).2 =
      (NewMemoryRepository.Save (str "abc123XYZ_") (str "https://example.com/a")).2 ∧
    (NewMemoryRepository.Save (str "abc123XYZ_") (str "https://example.com/a")).2.Save
        (str "abc123XYZ_") (str "https://example.com/a") =
      (Except.ok (), (NewMemoryRepository.Save (str "abc123XYZ_") (str "https://example.com/a")).2) ∧
    (NewMemoryRepository.Save (str "abc123XYZ_") (str "https://example.com/a")).2.shortToOriginal
        (str "abc123XYZ_") = some (str "https://example.com/a") ∧
    ((NewMemoryRepository.Save (str "abc123XYZ_") (str "https://example.com/a")).2.Save
        (str "abc123XYZ_") (str "https://example.com/c")).2 =
      (NewMemoryRepository.Save (str "abc123XYZ_") (str "https://example.com/a")).2 :=
  ⟨(Save_effect _ (str "abc123XYZ_") (str "https://example.com/b")).1 (Or.inl rfl),
    (Save_effect _ (str "0123456789") (str "https://example.com/a")).1 (Or.inr rfl),
    (Save_effect _ (str "abc123XYZ_") (str "https://example.com/a")).2.1 (by decide),
    ((Save_effect NewMemoryRepository (str "abc123XYZ_") (str "https://example.com/a")).2.2.2
      rfl rfl).2.1,
    (Save_effect _ (str "abc123XYZ_") (str "https://example.com/c")).2.2.1 (Or.inl (by decide))⟩

/-- C10. In every state reachable from the empty store by `Save` and `Clear` calls, if
`Save(code, url)` returns success then afterwards `Get(code)` returns `url` and
`GetByOriginal(url)` returns `code`. -/
theorem Save_then_lookup (r : MemoryRepository) (code url : GoString) (h : Reachable r)
    (hs : (r.Save code url).1 = Except.ok ()) :
    (r.Save code url).2.Get code = Except.ok url ∧
    (r.Save code url).2.GetByOriginal url = Except.ok code := by
  have hc := reachable_consistent r h
  rcases Save_cases r code url with ⟨u', h1, h2, e⟩ | ⟨u', h1, h2, e⟩ | ⟨h1, c', h2, h3, e⟩ |
    ⟨h1, h2, e⟩ | ⟨h1, h2, e⟩
  · subst h2
    rw [e]
    have h3 := (hc code u').1 h1
    simp [MemoryRepository.Get, MemoryRepository.GetByOriginal, h1, h3]
  · rw [e] at hs; simp at hs
  · rw [e] at hs; simp at hs
  · rw [← hc code url, h1] at h2
    simp at h2
  · rw [e]
    simp [MemoryRepository.Get, MemoryRepository.GetByOriginal, GoMap.set]

/-- The first `Save` of the store test, then both lookups. -/
theorem Save_then_lookup_witness :
    (NewMemoryRepository.Save (str "abc123XYZ_") (str "https://example.com/test")).2.Get
        (str "abc123XYZ_") = Except.ok (str "https://example.com/test") ∧
    (NewMemoryRepository.Save (str "abc123XYZ_") (str "https://example.com/test")).2.GetByOriginal
        (str "https://example.com/test") = Except.ok (str "abc123XYZ_") :=
  Save_then_lookup NewMemoryRepository (str "abc123XYZ_") (str "https://example.com/test")
    Reachable.init rfl


/-! ## Properties of the service -/

theorem validateURL_cases (Parse : GoString → Option URL) (u : GoString) :
    validateURL Parse u = Except.ok () ∨ validateURL Parse u = Except.error ErrInvalidURL := by
  unfold validateURL
  split
  · right; rfl
  · split
    · right; rfl
    · split
      · right; rfl
      · split
        · right; rfl
        · left; rfl

theorem validateURL_error_iff (Parse : GoString → Option URL) (u : GoString) :
    validateURL Parse u = Except.error ErrInvalidURL ↔
      (u = [] ∨ Parse u = none ∨ ∃ p, Parse u = some p ∧
        ((p.Scheme ≠ str "http" ∧ p.Scheme ≠ str "https") ∨ p.Host = [])) := by
  unfold validateURL
  by_cases h0 : u = []
  · simp [h0]
  · rw [if_neg h0]
    cases hp : Parse u with
    | none => simp
    | some p =>
      by_cases hs : p.Scheme ≠ str "http" ∧ p.Scheme ≠ str "https"
      · simp only [if_pos hs]
        simp [h0, hs]
      · simp only [if_neg hs]
        by_cases hh : p.Host = []
        · simp [h0, hh]
        · simp only [if_neg hh]
          simp [h0, hs, hh]

/-- The branches of `Create` over an arbitrary repository. -/
theorem Create_cases {σ : Type} (Parse : GoString → Option URL) (s : URLService σ) (st : σ)
    (u : GoString) :
    (validateURL Parse u = Except.error ErrInvalidURL ∧
      s.Create Parse st u = (Except.error ErrInvalidURL, st)) ∨
    (validateURL Parse u = Except.ok () ∧
      ((∃ c, (s.repo.GetByOriginal st u).1 = Except.ok c ∧
          s.Create Parse st u = (Except.ok c, (s.repo.GetByOriginal st u).2)) ∨
       (∃ e, (s.repo.GetByOriginal st u).1 = Except.error e ∧ errorsIs e ErrNotFound = false ∧
          s.Create Parse st u =
            (Except.error (Error.wrap "failed to check existing URL: %w" e),
              (s.repo.GetByOriginal st u).2)) ∨
       (∃ e, (s.repo.GetByOriginal st u).1 = Except.error e ∧ errorsIs e ErrNotFound = true ∧
          ((s.repo.Save (s.repo.GetByOriginal st u).2 (Generate u) u).1 = Except.ok () ∧
            s.Create Parse st u = (Except.ok (Generate u),
              (s.repo.Save (s.repo.GetByOriginal st u).2 (Generate u) u).2) ∨
           ∃ e', (s.repo.Save (s.repo.GetByOriginal st u).2 (Generate u) u).1 = Except.error e' ∧
            s.Create Parse st u =
              (Except.error (Error.wrap
                (if errorsIs e' ErrAlreadyExists = true then "short code collision detected: %w"
                  else "failed to save URL: %w") e'),
                (s.repo.Save (s.repo.GetByOriginal st u).2 (Generate u) u).2))))) := by
  unfold URLService.Create
  rcases validateURL_cases Parse u with hv | hv
  · right
    refine ⟨hv, ?_⟩
    rw [hv]
    rcases hg : s.repo.GetByOriginal st u with ⟨res, st1⟩
    cases res with
    | ok c => left; exact ⟨c, rfl, rfl⟩
    | error e =>
      right
      cases he : errorsIs e ErrNotFound with
      | false => left; exact ⟨e, rfl, he, by simp [he]⟩
      | true =>
        right
        refine ⟨e, rfl, he, ?_⟩
        simp only [he, Bool.not_true, Bool.false_eq_true, if_false]
        rcases hsv : s.repo.Save st1 (Generate u) u with ⟨res2, st2⟩
        cases res2 with
        | ok x => left; exact ⟨rfl, rfl⟩
        | error e' =>
          right
          refine ⟨e', rfl, ?_⟩
          by_cases hae : errorsIs e' ErrAlreadyExists = true
          · simp [hae]
          · simp [hae]
  · left
    refine ⟨hv, ?_⟩
    rw [hv]

/-- The branches of `Create` over the in-memory store. -/
theorem memCreate_cases (Parse : GoString → Option URL) (r : MemoryRepository) (u : GoString) :
    (validateURL Parse u = Except.error ErrInvalidURL ∧
      memoryService.Create Parse r u = (Except.error ErrInvalidURL, r)) ∨
    (validateURL Parse u = Except.ok () ∧ ∃ c, r.originalToShort u = some c ∧
      memoryService.Create Parse r u = (Except.ok c, r)) ∨
    (validateURL Parse u = Except.ok () ∧ r.originalToShort u = none ∧
      (r.Save (Generate u) u).1 = Except.ok () ∧
      memoryService.Create Parse r u = (Except.ok (Generate u), (r.Save (Generate u) u).2)) ∨
    (validateURL Parse u = Except.ok () ∧ r.originalToShort u = none ∧
      (r.Save (Generate u) u) = (Except.error ErrAlreadyExists, r) ∧
      memoryService.Create Parse r u =
        (Except.error (Error.wrap "short code collision detected: %w" ErrAlreadyExists), r)) := by
  rcases Create_cases Parse memoryService r u with ⟨hv, e⟩ | ⟨hv, h⟩
  · left; exact ⟨hv, e⟩
  · right
    have hget : memoryService.repo.GetByOriginal r u = (r.GetByOriginal u, r) := rfl
    have hsave : ∀ c, memoryService.repo.Save r c u = r.Save c u := fun _ => rfl
    rw [hget] at h
    simp only [hsave] at h
    cases ho : r.originalToShort u with
    | some c =>
      left
      have hg : r.GetByOriginal u = Except.ok c := by simp [MemoryRepository.GetByOriginal, ho]
      rw [hg] at h
      rcases h with ⟨c', h1, h2⟩ | ⟨e, h1, _⟩ | ⟨e, h1, _⟩
      · cases h1; exact ⟨hv, c, rfl, h2⟩
      · cases h1
      · cases h1
    | none =>
      right
      have hg : r.GetByOriginal u = Except.error ErrNotFound := by
        simp [MemoryRepository.GetByOriginal, ho]
      rw [hg] at h
      rcases h with ⟨c', h1, _⟩ | ⟨e, h1, h2, _⟩ | ⟨e, h1, _, h3⟩
      · cases h1
      · cases h1; simp [ErrNotFound, errorsIs] at h2
      · rcases h3 with ⟨h4, h5⟩ | ⟨e', h4, h5⟩
        · left; exact ⟨hv, rfl, h4, h5⟩
        · right
          rcases Save_cases r (Generate u) u with ⟨_, _, _, e⟩ | ⟨_, _, _, e⟩ |
            ⟨_, c', h2, _, _⟩ | ⟨_, h2, _⟩ | ⟨_, _, e⟩
          · rw [e] at h4; cases h4
          · rw [e] at h4 h5
            cases h4
            refine ⟨hv, rfl, e, ?_⟩
            rw [h5]
            simp [ErrAlreadyExists, errorsIs]
          · rw [ho] at h2; cases h2
          · rw [ho] at h2; cases h2
          · rw [e] at h4; cases h4


theorem memCreate_of_mapped (Parse : GoString → Option URL) (r : MemoryRepository)
    (u c : GoString) (hv : validateURL Parse u = Except.ok ())
    (hm : r.originalToShort u = some c) :
    memoryService.Create Parse r u = (Except.ok c, r) := by
  rcases memCreate_cases Parse r u with ⟨h1, _⟩ | ⟨_, c', h1, h2⟩ | ⟨_, h1, _⟩ | ⟨_, h1, _⟩
  · rw [hv] at h1; cases h1
  · rw [hm] at h1; cases h1; exact h2
  · rw [hm] at h1; cases h1
  · rw [hm] at h1; cases h1

/-- A successful `Create` leaves either the state it found, with `u` already mapped to
the returned code or the generated code already mapped to `u`, or the state in which
the generated pair has been inserted. -/
theorem memCreate_ok (Parse : GoString → Option URL) (r : MemoryRepository) (u c : GoString)
    (r1 : MemoryRepository) (h : memoryService.Create Parse r u = (Except.ok c, r1)) :
    validateURL Parse u = Except.ok () ∧
    ((r1 = r ∧ r.originalToShort u = some c) ∨
     (r1 = r ∧ c = Generate u ∧ r.originalToShort u = none ∧ r.shortToOriginal c = some u) ∨
     (c = Generate u ∧ r.originalToShort u = none ∧ r.shortToOriginal c = none ∧
      r1 = { shortToOriginal := r.shortToOriginal.set c u,
             originalToShort := r.originalToShort.set u c })) := by
  rcases memCreate_cases Parse r u with ⟨_, e⟩ | ⟨hv, c', h1, e⟩ | ⟨hv, h1, h2, e⟩ | ⟨_, _, _, e⟩
  · rw [e] at h; cases h
  · rw [e] at h; cases h
    exact ⟨hv, Or.inl ⟨rfl, h1⟩⟩
  · rw [e] at h
    have hc : Generate u = c := by cases h; rfl
    have hr : (r.Save (Generate u) u).2 = r1 := by cases h; rfl
    subst hc
    refine ⟨hv, Or.inr ?_⟩
    rcases Save_cases r (Generate u) u with ⟨u', h3, h4, e'⟩ | ⟨_, _, _, e'⟩ |
      ⟨_, c', h3, _, _⟩ | ⟨_, h3, _⟩ | ⟨h3, h4, e'⟩
    · subst h4
      rw [e'] at hr
      exact Or.inl ⟨hr.symm, rfl, h1, h3⟩
    · rw [e'] at h2; cases h2
    · rw [h1] at h3; cases h3
    · rw [h1] at h3; cases h3
    · rw [e'] at hr
      exact Or.inr ⟨rfl, h1, h3, hr.symm⟩
  · rw [e] at h; cases h

theorem memCreate_state (Parse : GoString → Option URL) (r : MemoryRepository) (u : GoString) :
    (memoryService.Create Parse r u).2 = r ∨
    ((memoryService.Create Parse r u).2 = (r.Save (Generate u) u).2) := by
  rcases memCreate_cases Parse r u with ⟨_, e⟩ | ⟨_, _, _, e⟩ | ⟨_, _, _, e⟩ | ⟨_, _, _, e⟩
  · left; rw [e]
  · left; rw [e]
  · right; rw [e]
  · left; rw [e]

theorem generated_save (r : MemoryRepository) (u : GoString) (h : Generated r) :
    Generated (r.Save (Generate u) u).2 := by
  rcases Save_cases r (Generate u) u with ⟨_, _, _, e⟩ | ⟨_, _, _, e⟩ | ⟨_, _, _, _, e⟩ |
    ⟨_, _, e⟩ | ⟨_, _, e⟩
  · rw [e]; exact h
  · rw [e]; exact h
  · rw [e]; exact h
  · rw [e]; exact h
  · rw [e]
    intro c v hcv
    change r.shortToOriginal.set (Generate u) u c = some v at hcv
    by_cases hc : c = Generate u
    · subst hc
      rw [GoMap.set_same] at hcv
      cases hcv; rfl
    · rw [GoMap.set_other _ _ _ _ hc] at hcv
      exact h c v hcv

theorem createReachable_inv (Parse : GoString → Option URL) (r : MemoryRepository)
    (h : CreateReachable Parse r) : Reachable r ∧ Generated r := by
  induction h with
  | init => exact ⟨Reachable.init, by intro c u hcu; simp [NewMemoryRepository] at hcu⟩
  | create r u _ ih =>
    rcases memCreate_state Parse r u with e | e
    · rw [e]; exact ih
    · rw [e]; exact ⟨Reachable.save r _ _ ih.1, generated_save r u ih.2⟩

/-- Over a consistent store a successful `Create` leaves a consistent store in which
the URL is mapped to the returned code. -/
theorem memCreate_ok_mapped (Parse : GoString → Option URL) (r : MemoryRepository)
    (u c : GoString) (r1 : MemoryRepository) (hc : Consistent r)
    (h : memoryService.Create Parse r u = (Except.ok c, r1)) :
    Consistent r1 ∧ r1.originalToShort u = some c := by
  have hst := memCreate_state Parse r u
  rw [h] at hst
  have hc1 : Consistent r1 := by
    rcases hst with e | e
    · rw [show r1 = r from e]; exact hc
    · rw [show r1 = _ from e]; exact consistent_save r _ _ hc
  refine ⟨hc1, ?_⟩
  rcases (memCreate_ok Parse r u c r1 h).2 with ⟨e, h1⟩ | ⟨_, _, h1, h2⟩ | ⟨_, _, _, e⟩
  · rw [e]; exact h1
  · rw [(hc c u).1 h2] at h1; cases h1
  · rw [e]; exact GoMap.set_same _ _ _

/-- C3. Idempotent creation over the in-memory store: in every state, if `Create(u)`
succeeds and returns `c`, an immediately following `Create(u)` also succeeds, returns
the same `c` and leaves the store exactly as the first call left it; and when the
first call starts from a state the store can reach (from empty, by `Save` and `Clear`
calls), the store then holds exactly one mapping for `u`: the URL index maps `u` to
`c` and `c` is the only code that the code index maps to `u`. -/
theorem Create_idempotent (Parse : GoString → Option URL) (r : MemoryRepository)
    (u c : GoString) (r1 : MemoryRepository)
    (h : memoryService.Create Parse r u = (Except.ok c, r1)) :
    memoryService.Create Parse r1 u = (Except.ok c, r1) ∧
    (Reachable r →
      r1.GetByOriginal u = Except.ok c ∧
      (∀ c', r1.Get c' = Except.ok u ↔ c' = c) ∧
      (∀ c', r1.shortToOriginal c' = some u ↔ c' = c) ∧
      (∀ c', r1.originalToShort u = some c' ↔ c' = c)) := by
  have hk := memCreate_ok Parse r u c r1 h
  constructor
  · rcases hk.2 with ⟨e, _⟩ | ⟨e, _⟩ | ⟨_, _, _, e⟩
    · rw [e]; rw [e] at h; exact h
    · rw [e]; rw [e] at h; exact h
    · exact memCreate_of_mapped Parse r1 u c hk.1 (by rw [e]; exact GoMap.set_same _ _ _)
  · intro hr
    have hm := memCreate_ok_mapped Parse r u c r1 (reachable_consistent r hr) h
    have h3 : ∀ c', r1.originalToShort u = some c' ↔ c' = c := by
      intro c'
      rw [hm.2]
      constructor
      · intro e; cases e; rfl
      · intro e; rw [e]
    have h2 : ∀ c', r1.shortToOriginal c' = some u ↔ c' = c := by
      intro c'
      rw [hm.1 c' u]
      exact h3 c'
    refine ⟨by simp [MemoryRepository.GetByOriginal, hm.2], ?_, h2, h3⟩
    intro c'
    rw [← h2 c']
    unfold MemoryRepository.Get
    cases r1.shortToOriginal c' with
    | none => simp
    | some v => simp

/-- The idempotency test of the service: the second `Create` of the same URL on the
store the first call left, and the lookup of the URL in that store. -/
theorem Create_idempotent_witness :
    memoryService.Create sampleParse
        (NewMemoryRepository.Save (Generate (str "https://example.com/test"))
          (str "https://example.com/test")).2 (str "https://example.com/test") =
      (Except.ok (Generate (str "https://example.com/test")),
        (NewMemoryRepository.Save (Generate (str "https://example.com/test"))
          (str "https://example.com/test")).2) ∧
    (NewMemoryRepository.Save (Generate (str "https://example.com/test"))
        (str "https://example.com/test")).2.GetByOriginal (str "https://example.com/test") =
      Except.ok (Generate (str "https://example.com/test")) :=
  ⟨(Create_idempotent sampleParse NewMemoryRepository (str "https://example.com/test")
      (Generate (str "https://example.com/test"))
      (NewMemoryRepository.Save (Generate (str "https://example.com/test"))
        (str "https://example.com/test")).2 rfl).1,
    ((Create_idempotent sampleParse NewMemoryRepository (str "https://example.com/test")
      (Generate (str "https://example.com/test"))
      (NewMemoryRepository.Save (Generate (str "https://example.com/test"))
        (str "https://example.com/test")).2 rfl).2 Reachable.init).1⟩

/-- C4. Round trip: in every state of the in-memory store reached from the empty store
by `Create` calls, if `Create(u)` returns the code `c` (so `u` was accepted by
validation) then `Resolve(c)` on the resulting store succeeds and returns exactly the
bytes of `u`. -/
theorem Create_Resolve (Parse : GoString → Option URL) (r : MemoryRepository)
    (u c : GoString) (r1 : MemoryRepository) (hr : CreateReachable Parse r)
    (h : memoryService.Create Parse r u = (Except.ok c, r1)) :
    validateURL Parse u = Except.ok () ∧ memoryService.Resolve r1 c = (Except.ok u, r1) := by
  have hi := createReachable_inv Parse r hr
  have hi1 := createReachable_inv Parse _ (CreateReachable.create r u hr)
  rw [h] at hi1
  have hm := memCreate_ok_mapped Parse r u c r1 (reachable_consistent r hi.1) h
  have hcu : r1.shortToOriginal c = some u := (hm.1 c u).2 hm.2
  have hg : c = Generate u := hi1.2 c u hcu
  have hv : Validate c = true := by rw [hg]; exact Validate_Generate u
  refine ⟨(memCreate_ok Parse r u c r1 h).1, ?_⟩
  have hget : memoryService.repo.Get r1 c = (Except.ok u, r1) := by
    show (r1.Get c, r1) = _
    simp [MemoryRepository.Get, hcu]
  simp [URLService.Resolve, hv, hget]

/-- The resolve test of the service: `Create` on the empty store, then `Resolve` of the
returned code. -/
theorem Create_Resolve_witness :
    memoryService.Resolve
        (NewMemoryRepository.Save (Generate (str "https://example.com/test"))
          (str "https://example.com/test")).2 (Generate (str "https://example.com/test")) =
      (Except.ok (str "https://example.com/test"),
        (NewMemoryRepository.Save (Generate (str "https://example.com/test"))
          (str "https://example.com/test")).2) :=
  (Create_Resolve sampleParse NewMemoryRepository (str "https://example.com/test")
    (Generate (str "https://example.com/test"))
    (NewMemoryRepository.Save (Generate (str "https://example.com/test"))
      (str "https://example.com/test")).2 CreateReachable.init rfl).2


/-- C7. `Resolve(c)` is `ErrNotFound` when `Validate(c)` is false, with the repository
state untouched and no call made on the repository, whatever the store holds under the
key `c`; otherwise it is exactly the value or error, and the state, that the single
call `Get(c)` returns. -/
theorem Resolve_spec {σ : Type} (s : URLService σ) (st : σ) (log : List Call)
    (r : MemoryRepository) (c : GoString) :
    s.Resolve st c =
      (if Validate c = true then s.repo.Get st c else (Except.error ErrNotFound, st)) ∧
    (s.traced.Resolve (st, log) c).2.2 =
      (if Validate c = true then log ++ [Call.get c] else log) ∧
    (s.traced.Resolve (st, log) c).1 = (s.Resolve st c).1 ∧
    memoryService.Resolve r c =
      (if Validate c = true then (r.Get c, r) else (Except.error ErrNotFound, r)) := by
  have key : ∀ {τ : Type} (t : URLService τ) (x : τ), t.Resolve x c =
      (if Validate c = true then t.repo.Get x c else (Except.error ErrNotFound, x)) := by
    intro τ t x
    unfold URLService.Resolve
    cases hv : Validate c with
    | false => simp
    | true =>
      rcases hg : t.repo.Get x c with ⟨res, x1⟩
      cases res <;> simp
  refine ⟨key s st, ?_, ?_, ?_⟩
  · rw [key]
    cases hv : Validate c with
    | false => simp
    | true => simp [URLService.traced, URLRepository.traced]
  · rw [key, key]
    cases hv : Validate c with
    | false => simp
    | true => simp [URLService.traced, URLRepository.traced]
  · rw [key]; rfl

/-- A malformed code is refused even when the store holds a mapping under it, and no
call reaches the repository; a well-formed code goes to `Get`. -/
theorem Resolve_spec_witness :
    memoryService.Resolve (NewMemoryRepository.Save (str "bad") (str "https://example.com/x")).2
        (str "bad") =
      (Except.error ErrNotFound,
        (NewMemoryRepository.Save (str "bad") (str "https://example.com/x")).2) ∧
    (memoryService.traced.Resolve
        ((NewMemoryRepository.Save (str "bad") (str "https://example.com/x")).2, [])
        (str "bad")).2.2 = [] ∧
    (memoryService.traced.Resolve (NewMemoryRepository, []) (str "abc123XYZ_")).2.2 =
      [Call.get (str "abc123XYZ_")] :=
  ⟨(Resolve_spec memoryService NewMemoryRepository []
      (NewMemoryRepository.Save (str "bad") (str "https://example.com/x")).2 (str "bad")).2.2.2,
    (Resolve_spec memoryService
      (NewMemoryRepository.Save (str "bad") (str "https://example.com/x")).2 []
      NewMemoryRepository (str "bad")).2.1,
    (Resolve_spec memoryService NewMemoryRepository [] NewMemoryRepository
      (str "abc123XYZ_")).2.1⟩

/-- C8. `Create(u)` fails with exactly the error `ErrInvalidURL` if and only if `u` is
empty, or `u` does not parse, or its parsed scheme is neither `http` nor `https`, or
its parsed host is empty; in that case the repository state is the one it received and
no call is made on the repository.  The empty string is always rejected, and
`example.com`, `ftp://example.com` and `https://` are rejected as soon as the parser
gives them no scheme, the scheme `ftp` and no host respectively. -/
theorem Create_invalid {σ : Type} (Parse : GoString → Option URL) (s : URLService σ) (st : σ)
    (log : List Call) (u : GoString) :
    ((s.Create Parse st u).1 = Except.error ErrInvalidURL ↔
      (u = [] ∨ Parse u = none ∨ ∃ p, Parse u = some p ∧
        ((p.Scheme ≠ str "http" ∧ p.Scheme ≠ str "https") ∨ p.Host = []))) ∧
    ((s.Create Parse st u).1 = Except.error ErrInvalidURL →
      (s.Create Parse st u).2 = st ∧
      s.traced.Create Parse (st, log) u = (Except.error ErrInvalidURL, (st, log))) ∧
    s.Create Parse st (str "") = (Except.error ErrInvalidURL, st) ∧
    ((∀ p, Parse (str "example.com") = some p → p.Scheme = str "") →
      s.Create Parse st (str "example.com") = (Except.error ErrInvalidURL, st)) ∧
    ((∀ p, Parse (str "ftp://example.com") = some p → p.Scheme = str "ftp") →
      s.Create Parse st (str "ftp://example.com") = (Except.error ErrInvalidURL, st)) ∧
    ((∀ p, Parse (str "https://") = some p → p.Host = str "") →
      s.Create Parse st (str "https://") = (Except.error ErrInvalidURL, st)) := by
  have key : ∀ {τ : Type} (t : URLService τ) (x : τ) (v : GoString),
      ((t.Create Parse x v).1 = Except.error ErrInvalidURL ↔
        validateURL Parse v = Except.error ErrInvalidURL) ∧
      (validateURL Parse v = Except.error ErrInvalidURL →
        t.Create Parse x v = (Except.error ErrInvalidURL, x)) := by
    intro τ t x v
    rcases Create_cases Parse t x v with ⟨hv, e⟩ | ⟨hv, h⟩
    · rw [e]; simp [hv]
    · rw [hv]
      rcases h with ⟨c, _, e⟩ | ⟨e0, _, _, e⟩ | ⟨e0, _, _, ⟨_, e⟩ | ⟨e', _, e⟩⟩
      · rw [e]; simp
      · rw [e]; simp [ErrInvalidURL]
      · rw [e]; simp
      · rw [e]; simp [ErrInvalidURL]
  have ex : ∀ v : GoString, (Parse v = none ∨ ∃ p, Parse v = some p ∧
      ((p.Scheme ≠ str "http" ∧ p.Scheme ≠ str "https") ∨ p.Host = [])) →
      s.Create Parse st v = (Except.error ErrInvalidURL, st) := by
    intro v hv
    exact (key s st v).2 ((validateURL_error_iff Parse v).2 (Or.inr hv))
  refine ⟨?_, ?_, ?_, ?_, ?_, ?_⟩
  · rw [(key s st u).1, validateURL_error_iff]
  · intro h
    have hv := (key s st u).1.1 h
    exact ⟨by rw [(key s st u).2 hv], (key s.traced (st, log) u).2 hv⟩
  · exact (key s st (str "")).2 ((validateURL_error_iff Parse _).2 (Or.inl rfl))
  · intro h
    apply ex
    cases hp : Parse (str "example.com") with
    | none => exact Or.inl rfl
    | some p =>
      refine Or.inr ⟨p, rfl, Or.inl ?_⟩
      rw [h p hp]
      decide
  · intro h
    apply ex
    cases hp : Parse (str "ftp://example.com") with
    | none => exact Or.inl rfl
    | some p =>
      refine Or.inr ⟨p, rfl, Or.inl ?_⟩
      rw [h p hp]
      decide
  · intro h
    apply ex
    cases hp : Parse (str "https://") with
    | none => exact Or.inl rfl
    | some p => exact Or.inr ⟨p, rfl, Or.inr (h p hp)⟩

/-- The rejected URLs of the service test, run on the in-memory store with the sample
parser: each is refused with `ErrInvalidURL` and the store stays empty. -/
theorem Create_invalid_witness :
    (memoryService.Create sampleParse NewMemoryRepository (str "ftp://example.com/x")).2 =
        NewMemoryRepository ∧
    memoryService.traced.Create sampleParse (NewMemoryRepository, []) (str "ftp://example.com/x") =
        (Except.error ErrInvalidURL, (NewMemoryRepository, [])) ∧
    memoryService.Create sampleParse NewMemoryRepository (str "example.com") =
        (Except.error ErrInvalidURL, NewMemoryRepository) ∧
    memoryService.Create sampleParse NewMemoryRepository (str "ftp://example.com") =
        (Except.error ErrInvalidURL, NewMemoryRepository) ∧
    memoryService.Create sampleParse NewMemoryRepository (str "https://") =
        (Except.error ErrInvalidURL, NewMemoryRepository) :=
  ⟨((Create_invalid sampleParse memoryService NewMemoryRepository [] (str "ftp://example.com/x")).2.1
      rfl).1,
    ((Create_invalid sampleParse memoryService NewMemoryRepository [] (str "ftp://example.com/x")).2.1
      rfl).2,
    (Create_invalid sampleParse memoryService NewMemoryRepository [] []).2.2.2.1
      (fun p hp => by
        have e : sampleParse (str "example.com") = some { Scheme := [], Host := [] } := by decide
        rw [e] at hp; cases hp; rfl),
    (Create_invalid sampleParse memoryService NewMemoryRepository [] []).2.2.2.2.1
      (fun p hp => by
        have e : sampleParse (str "ftp://example.com") =
            some { Scheme := str "ftp", Host := str "example.com" } := by decide
        rw [e] at hp; cases hp; rfl),
    (Create_invalid sampleParse memoryService NewMemoryRepository [] []).2.2.2.2.2
      (fun p hp => by
        have e : sampleParse (str "https://") = some { Scheme := str "https", Host := [] } := by
          decide
        rw [e] at hp; cases hp; rfl)⟩


/-! ## Lookups and persistence of mappings in the in-memory store -/

/-- C11. In the in-memory store `Get(code)` returns `ErrNotFound` if and only if `code`
has no mapping and otherwise returns the mapped URL; `GetByOriginal(url)` returns
`ErrNotFound` if and only if `url` has no mapping and otherwise returns the mapped
code; neither call changes the store; every lookup on the empty store and on a store
just after `Clear` returns `ErrNotFound`. -/
theorem lookup_spec (r : MemoryRepository) (code url : GoString) :
    (r.Get code = Except.error ErrNotFound ↔ r.shortToOriginal code = none) ∧
    (∀ u, r.shortToOriginal code = some u → r.Get code = Except.ok u) ∧
    (r.GetByOriginal url = Except.error ErrNotFound ↔ r.originalToShort url = none) ∧
    (∀ c, r.originalToShort url = some c → r.GetByOriginal url = Except.ok c) ∧
    MemoryRepository.repo.Get r code = (r.Get code, r) ∧
    MemoryRepository.repo.GetByOriginal r url = (r.GetByOriginal url, r) ∧
    NewMemoryRepository.Get code = Except.error ErrNotFound ∧
    NewMemoryRepository.GetByOriginal url = Except.error ErrNotFound ∧
    r.Clear.Get code = Except.error ErrNotFound ∧
    r.Clear.GetByOriginal url = Except.error ErrNotFound := by
  refine ⟨?_, ?_, ?_, ?_, rfl, rfl, rfl, rfl, rfl, rfl⟩
  · unfold MemoryRepository.Get
    cases r.shortToOriginal code <;> simp
  · intro u h
    simp [MemoryRepository.Get, h]
  · unfold MemoryRepository.GetByOriginal
    cases r.originalToShort url <;> simp
  · intro c h
    simp [MemoryRepository.GetByOriginal, h]

/-- The lookups of the store tests: a stored pair is found in both directions, and
after `Clear` it is not. -/
theorem lookup_spec_witness :
    (NewMemoryRepository.Save (str "abc123XYZ_") (str "https://example.com/test")).2.Get
        (str "abc123XYZ_") = Except.ok (str "https://example.com/test") ∧
    (NewMemoryRepository.Save (str "abc123XYZ_") (str "https://example.com/test")).2.GetByOriginal
        (str "https://example.com/test") = Except.ok (str "abc123XYZ_") ∧
    (NewMemoryRepository.Save (str "abc123XYZ_") (str "https://example.com/test")).2.Get
        (str "notexists") = Except.error ErrNotFound ∧
    (NewMemoryRepository.Save (str "abc123XYZ_") (str "https://example.com/test")).2.Clear.Get
        (str "abc123XYZ_") = Except.error ErrNotFound :=
  ⟨(lookup_spec _ (str "abc123XYZ_") (str "https://example.com/test")).2.1 _ (by decide),
    (lookup_spec _ (str "abc123XYZ_") (str "https://example.com/test")).2.2.2.1 _ (by decide),
    (lookup_spec _ (str "notexists") (str "https://example.com/test")).1.2 (by decide),
    (lookup_spec (NewMemoryRepository.Save (str "abc123XYZ_") (str "https://example.com/test")).2
      (str "abc123XYZ_") (str "https://example.com/test")).2.2.2.2.2.2.2.2.1⟩

theorem Save_keeps_code (r : MemoryRepository) (code url c u : GoString)
    (h : r.shortToOriginal c = some u) : (r.Save code url).2.shortToOriginal c = some u := by
  rcases Save_cases r code url with ⟨_, _, _, e⟩ | ⟨_, _, _, e⟩ | ⟨_, _, _, _, e⟩ | ⟨_, _, e⟩ |
    ⟨h1, _, e⟩
  · rw [e]; exact h
  · rw [e]; exact h
  · rw [e]; exact h
  · rw [e]; exact h
  · rw [e]
    have hc : c ≠ code := by
      intro hcc; rw [hcc, h1] at h; cases h
    show r.shortToOriginal.set code url c = some u
    rw [GoMap.set_other _ _ _ _ hc]; exact h

theorem Save_keeps_url (r : MemoryRepository) (code url c u : GoString)
    (h : r.originalToShort u = some c) : (r.Save code url).2.originalToShort u = some c := by
  rcases Save_cases r code url with ⟨_, _, _, e⟩ | ⟨_, _, _, e⟩ | ⟨_, _, _, _, e⟩ | ⟨_, _, e⟩ |
    ⟨_, h2, e⟩
  · rw [e]; exact h
  · rw [e]; exact h
  · rw [e]; exact h
  · rw [e]; exact h
  · rw [e]
    have hu : u ≠ url := by
      intro huu; rw [huu, h2] at h; cases h
    show r.originalToShort.set url code u = some c
    rw [GoMap.set_other _ _ _ _ hu]; exact h

theorem saveAll_keeps (calls : List (GoString × GoString)) :
    ∀ (r : MemoryRepository) (c u : GoString),
      (r.shortToOriginal c = some u → (r.saveAll calls).shortToOriginal c = some u) ∧
      (r.originalToShort u = some c → (r.saveAll calls).originalToShort u = some c) := by
  induction calls with
  | nil => intro r c u; exact ⟨id, id⟩
  | cons call calls ih =>
    intro r c u
    constructor
    · intro h
      exact (ih _ c u).1 (Save_keeps_code r call.1 call.2 c u h)
    · intro h
      exact (ih _ c u).2 (Save_keeps_url r call.1 call.2 c u h)

theorem reachable_saveAll (calls : List (GoString × GoString)) :
    ∀ r : MemoryRepository, Reachable r → Reachable (r.saveAll calls) := by
  induction calls with
  | nil => intro r h; exact h
  | cons call calls ih => intro r h; exact ih _ (Reachable.save r call.1 call.2 h)

/-- C15. A mapping is never mutated: in every state of the in-memory store in which
`Get(c)` returns `u`, after any further sequence of `Save` calls, with any arguments
and whether they succeed or fail, `Get(c)` still returns `u`, and `GetByOriginal(u)`
still returns the code it returned before; in a state the store can reach that code
is `c`, before and after. -/
theorem mapping_never_mutated (r : MemoryRepository) (c u : GoString)
    (calls : List (GoString × GoString)) (h : r.Get c = Except.ok u) :
    (r.saveAll calls).Get c = Except.ok u ∧
    (∀ c0, r.GetByOriginal u = Except.ok c0 →
      (r.saveAll calls).GetByOriginal u = Except.ok c0) ∧
    (Reachable r → r.GetByOriginal u = Except.ok c ∧
      (r.saveAll calls).GetByOriginal u = Except.ok c) := by
  have hget : ∀ (s : MemoryRepository) (k v : GoString),
      s.Get k = Except.ok v ↔ s.shortToOriginal k = some v := by
    intro s k v
    unfold MemoryRepository.Get
    cases s.shortToOriginal k <;> simp
  have hgo : ∀ (s : MemoryRepository) (k v : GoString),
      s.GetByOriginal k = Except.ok v ↔ s.originalToShort k = some v := by
    intro s k v
    unfold MemoryRepository.GetByOriginal
    cases s.originalToShort k <;> simp
  have hcu := (hget r c u).1 h
  refine ⟨(hget _ c u).2 ((saveAll_keeps calls r c u).1 hcu), ?_, ?_⟩
  · intro c0 h0
    exact (hgo _ u c0).2 ((saveAll_keeps calls r c0 u).2 ((hgo r u c0).1 h0))
  · intro hr
    have huc := (reachable_consistent r hr c u).1 hcu
    exact ⟨(hgo r u c).2 huc, (hgo _ u c).2 ((saveAll_keeps calls r c u).2 huc)⟩

/-- A stored pair survives a colliding `Save`, a duplicate `Save` and a fresh `Save`. -/
theorem mapping_never_mutated_witness :
    ((NewMemoryRepository.Save (str "abc123XYZ_") (str "https://example.com/a")).2.saveAll
        [(str "abc123XYZ_", str "https://example.com/b"),
         (str "0123456789", str "https://example.com/a"),
         (str "0123456789", str "https://example.com/c")]).Get (str "abc123XYZ_") =
      Except.ok (str "https://example.com/a") ∧
    ((NewMemoryRepository.Save (str "abc123XYZ_") (str "https://example.com/a")).2.saveAll
        [(str "abc123XYZ_", str "https://example.com/b"),
         (str "0123456789", str "https://example.com/a"),
         (str "0123456789", str "https://example.com/c")]).GetByOriginal
        (str "https://example.com/a") = Except.ok (str "abc123XYZ_") :=
  ⟨(mapping_never_mutated
      (NewMemoryRepository.Save (str "abc123XYZ_") (str "https://example.com/a")).2
      (str "abc123XYZ_") (str "https://example.com/a")
      [(str "abc123XYZ_", str "https://example.com/b"),
       (str "0123456789", str "https://example.com/a"),
       (str "0123456789", str "https://example.com/c")] rfl).1,
    ((mapping_never_mutated
      (NewMemoryRepository.Save (str "abc123XYZ_") (str "https://example.com/a")).2
      (str "abc123XYZ_") (str "https://example.com/a")
      [(str "abc123XYZ_", str "https://example.com/b"),
       (str "0123456789", str "https://example.com/a"),
       (str "0123456789", str "https://example.com/c")] rfl).2.2
      (Reachable.save _ _ _ Reachable.init)).2⟩


/-! ## More on `Generate` and the alphabet -/

set_option maxRecDepth 1000000 in
/-- The digest and the encoding on published test vectors: SHA-256 of `abc` (FIPS 180)
and the base64 examples of RFC 4648, without padding and in the URL-safe alphabet. -/
theorem library_vectors :
    sha256.Sum256 (str "abc") =
      [0xBA, 0x78, 0x16, 0xBF, 0x8F, 0x01, 0xCF, 0xEA, 0x41, 0x41, 0x40, 0xDE, 0x5D, 0xAE,
       0x22, 0x23, 0xB0, 0x03, 0x61, 0xA3, 0x96, 0x17, 0x7A, 0x9C, 0xB4, 0x10, 0xFF, 0x61,
       0xF2, 0x00, 0x15, 0xAD] ∧
    base64.EncodeToString (str "foobar") = str "Zm9vYmFy" ∧
    base64.EncodeToString (str "fo") = str "Zm8" ∧
    base64.EncodeToString (str "f") = str "Zg" ∧
    base64.EncodeToString [0xFB, 0xFF] = str "-_8" := by
  decide

theorem Generate_eq_spec (u : GoString) : Generate u = specGenerate u := by
  rw [Generate_eq]
  rfl

/-- C14. For every string `u`, `Generate u` is the first 10 characters of the unpadded
URL-safe base64 encoding of the SHA-256 digest of the bytes of `u` in which every `-`
has been replaced by `_` (replacing before or after the cut gives the same code); it is
a function of `u` alone, so any number of calls on the same input return the same
code. -/
theorem Generate_spec (u : GoString) :
    Generate u = specGenerate u ∧
    Generate u = ((base64.EncodeToString (sha256.Sum256 u)).take 10).map
      (fun b => if b = 45 then 95 else b) ∧
    (∀ u', u' = u → Generate u' = Generate u) ∧
    (∀ n : Nat, (List.replicate n u).map Generate = List.replicate n (Generate u)) := by
  refine ⟨Generate_eq_spec u, ?_, ?_, ?_⟩
  · rw [Generate_eq, ReplaceAll, List.map_take]
  · intro u' h; rw [h]
  · intro n; simp

/-- The hundred calls of the idempotency test return one code. -/
theorem Generate_spec_witness :
    (List.replicate 100 (str "https://example.com/test")).map Generate =
      List.replicate 100 (Generate (str "https://example.com/test")) ∧
    Generate (str "https://example.com/test") = Generate (str "https://example.com/test") :=
  ⟨(Generate_spec (str "https://example.com/test")).2.2.2 100,
    (Generate_spec (str "https://example.com/test")).2.2.1 _ rfl⟩

/-- C16. `Generate` is not injective: there are two different strings with the same
code, since infinitely many strings are mapped into the finite set of 10-byte codes. -/
theorem Generate_not_injective :
    (∃ u₁ u₂ : GoString, u₁ ≠ u₂ ∧ Generate u₁ = Generate u₂) ∧
    ¬ Function.Injective Generate := by
  have h : ∃ u₁ u₂ : GoString, u₁ ≠ u₂ ∧ Generate u₁ = Generate u₂ := by
    let f : GoString → Mathlib.Vector Byte 10 := fun u => ⟨Generate u, Generate_length u⟩
    obtain ⟨x, y, hne, hxy⟩ := Finite.exists_ne_map_eq_of_infinite f
    exact ⟨x, y, hne, congrArg Subtype.val hxy⟩
  refine ⟨h, ?_⟩
  intro hinj
  obtain ⟨x, y, hne, hxy⟩ := h
  exact hne (hinj hxy)

theorem accepted_runes (s : Finset Nat) (h : ∀ ch, ch ∈ s ↔ isValidChar ch = true) :
    s = (Finset.range 128).filter (fun ch => isValidChar ch = true) := by
  ext ch
  rw [h ch]
  simp only [Finset.mem_filter, Finset.mem_range]
  constructor
  · intro hv
    refine ⟨?_, hv⟩
    rw [isValidChar_iff] at hv
    omega
  · exact fun hv => hv.2

theorem accepted_runes_card :
    ((Finset.range 128).filter (fun ch => isValidChar ch = true)).card = 63 := by
  decide

/-- C17, the claim as stated fails: no set of exactly 64 symbols is the set of
characters that `isValidChar` accepts. -/
theorem alphabet_card_ne_64 :
    ¬ ∃ s : Finset Nat, (∀ ch, ch ∈ s ↔ isValidChar ch = true) ∧ s.card = 64 := by
  rintro ⟨s, hs, hc⟩
  rw [accepted_runes s hs, accepted_runes_card] at hc
  exact absurd hc (by decide)

set_option maxRecDepth 1000000 in
theorem base62Chars_facts :
    base62Chars.length = 63 ∧ base62Chars.Nodup ∧
    (∀ b : Byte, b ∈ base62Chars ↔ isValidChar b.val = true) := by
  decide

/-- C17, amended. The short-code alphabet, the set of characters that `Validate`
accepts (26 lowercase letters, 26 uppercase letters, 10 digits and `_`), contains
exactly 63 symbols: they are the characters of the constant `base62Chars`, each listed
once, and exactly the bytes that occur in some accepted code. -/
theorem alphabet_card :
    (∃ s : Finset Nat, (∀ ch, ch ∈ s ↔ isValidChar ch = true) ∧ s.card = 63) ∧
    (∃ s : Finset Byte, (∀ b, b ∈ s ↔ ∃ c, Validate c = true ∧ b ∈ c) ∧ s.card = 63) ∧
    base62Chars.length = 63 ∧ base62Chars.Nodup ∧
    (∀ b : Byte, b ∈ base62Chars ↔ isValidChar b.val = true) ∧
    ((Finset.range 128).filter (fun ch => 97 ≤ ch ∧ ch ≤ 122)).card = 26 ∧
    ((Finset.range 128).filter (fun ch => 65 ≤ ch ∧ ch ≤ 90)).card = 26 ∧
    ((Finset.range 128).filter (fun ch => 48 ≤ ch ∧ ch ≤ 57)).card = 10 ∧
    ((Finset.range 128).filter (fun ch => ch = 95)).card = 1 := by
  have hb := base62Chars_facts
  have hv : ∀ b : Byte, (∃ c, Validate c = true ∧ b ∈ c) ↔ isValidChar b.val = true := by
    intro b
    constructor
    · rintro ⟨c, hc, hm⟩
      exact ((Validate_eq_true_iff c).1 hc).2 b hm
    · intro h
      refine ⟨List.replicate 10 b, ?_, by simp⟩
      rw [Validate_eq_true_iff]
      refine ⟨by simp, ?_⟩
      intro x hx
      rw [List.eq_of_mem_replicate hx]
      exact h
  refine ⟨⟨_, fun ch => ?_, accepted_runes_card⟩, ⟨base62Chars.toFinset, fun b => ?_, ?_⟩,
    hb.1, hb.2.1, hb.2.2, by decide, by decide, by decide, by decide⟩
  · simp only [Finset.mem_filter, Finset.mem_range]
    constructor
    · exact fun h => h.2
    · intro h
      refine ⟨?_, h⟩
      rw [isValidChar_iff] at h
      omega
  · rw [List.mem_toFinset, hb.2.2 b, hv b]
  · rw [List.toFinset_card_of_nodup hb.2.1, hb.1]

set_option maxRecDepth 1000000 in
/-- C18. The codes generated for the two distinct URLs of the generator test,
`https://example.com/page1` and `https://example.com/page2`, are different: they are
`nOP84Ohk4S` and `hXfP6X8aFD`. -/
theorem Generate_page1_page2 :
    Generate (str "https://example.com/page1") ≠ Generate (str "https://example.com/page2") ∧
    Generate (str "https://example.com/page1") = str "nOP84Ohk4S" ∧
    Generate (str "https://example.com/page2") = str "hXfP6X8aFD" := by
  decide


/-! ## Failures of `Save` inside `Create` -/

theorem errorsIs_wrap_new (format : String) (err : Error) (ident : Nat) (text : String) :
    errorsIs (Error.wrap format err) (Error.new ident text) =
      errorsIs err (Error.new ident text) := by
  simp [errorsIs]

theorem errorsIs_new_unique (err : Error) (i j : Nat) (a b : String)
    (ha : errorsIs err (Error.new i a) = true) (hb : errorsIs err (Error.new j b) = true) :
    Error.new i a = Error.new j b := by
  induction err with
  | new ident text =>
    simp only [errorsIs, decide_eq_true_eq] at ha hb
    rw [← ha, ← hb]
  | wrap format err ih =>
    rw [errorsIs_wrap_new] at ha hb
    exact ih ha hb

/-- The calls `Create` makes once validation has passed and `GetByOriginal` has failed
with an error that is `ErrNotFound`: one `GetByOriginal`, then one `Save` of the
generated code, whose error it wraps. -/
theorem Create_save_failure {σ : Type} (Parse : GoString → Option URL) (s : URLService σ)
    (st : σ) (u : GoString) (e e' : Error)
    (hv : validateURL Parse u = Except.ok ())
    (hg : (s.repo.GetByOriginal st u).1 = Except.error e)
    (hnf : errorsIs e ErrNotFound = true)
    (hs : (s.repo.Save (s.repo.GetByOriginal st u).2 (Generate u) u).1 = Except.error e') :
    s.Create Parse st u =
      (Except.error (Error.wrap
        (if errorsIs e' ErrAlreadyExists = true then "short code collision detected: %w"
          else "failed to save URL: %w") e'),
        (s.repo.Save (s.repo.GetByOriginal st u).2 (Generate u) u).2) := by
  rcases Create_cases Parse s st u with ⟨h1, _⟩ | ⟨_, h⟩
  · rw [hv] at h1; cases h1
  · rcases h with ⟨c, h1, _⟩ | ⟨e0, h1, h2, _⟩ | ⟨e0, h1, _, h3⟩
    · rw [hg] at h1; cases h1
    · rw [hg] at h1; cases h1; rw [hnf] at h2; cases h2
    · rcases h3 with ⟨h4, _⟩ | ⟨e1, h4, h5⟩
      · rw [hs] at h4; cases h4
      · rw [hs] at h4; cases h4; exact h5

theorem traced_Create_save_failure {σ : Type} (Parse : GoString → Option URL)
    (s : URLService σ) (st : σ) (log : List Call) (u : GoString) (e e' : Error)
    (hv : validateURL Parse u = Except.ok ())
    (hg : (s.repo.GetByOriginal st u).1 = Except.error e)
    (hnf : errorsIs e ErrNotFound = true)
    (hs : (s.repo.Save (s.repo.GetByOriginal st u).2 (Generate u) u).1 = Except.error e') :
    (s.traced.Create Parse (st, log) u).2.2 =
      log ++ [Call.getByOriginal u, Call.save (Generate u) u] := by
  have h := Create_save_failure Parse s.traced (st, log) u e e' hv hg hnf hs
  rw [h]
  simp [URLService.traced, URLRepository.traced]

/-- C12. When, for a valid URL `u`, `GetByOriginal(u)` reports `ErrNotFound` and
`Save(Generate(u), u)` reports `ErrAlreadyExists`, `Create(u)` returns no code but an
error that still identifies as `ErrAlreadyExists` under `errors.Is`; the calls it makes
are one `GetByOriginal(u)` and then exactly one `Save`, with the code `Generate(u)`;
and against the in-memory store the stored mappings are left unchanged. -/
theorem Create_collision {σ : Type} (Parse : GoString → Option URL) (s : URLService σ)
    (st : σ) (log : List Call) (u : GoString) (e e' : Error)
    (hv : validateURL Parse u = Except.ok ())
    (hg : (s.repo.GetByOriginal st u).1 = Except.error e)
    (hnf : errorsIs e ErrNotFound = true)
    (hs : (s.repo.Save (s.repo.GetByOriginal st u).2 (Generate u) u).1 = Except.error e')
    (hae : errorsIs e' ErrAlreadyExists = true) :
    (s.Create Parse st u).1 =
      Except.error (Error.wrap "short code collision detected: %w" e') ∧
    errorsIs (Error.wrap "short code collision detected: %w" e') ErrAlreadyExists = true ∧
    (∀ c, (s.Create Parse st u).1 ≠ Except.ok c) ∧
    (s.traced.Create Parse (st, log) u).2.2 =
      log ++ [Call.getByOriginal u, Call.save (Generate u) u] ∧
    (∀ r : MemoryRepository, r.GetByOriginal u = Except.error ErrNotFound →
      (r.Save (Generate u) u).1 = Except.error ErrAlreadyExists →
      memoryService.Create Parse r u =
        (Except.error (Error.wrap "short code collision detected: %w" ErrAlreadyExists), r)) := by
  have h := Create_save_failure Parse s st u e e' hv hg hnf hs
  rw [if_pos hae] at h
  refine ⟨by rw [h], ?_, ?_, traced_Create_save_failure Parse s st log u e e' hv hg hnf hs, ?_⟩
  · rw [ErrAlreadyExists, errorsIs_wrap_new]; exact hae
  · intro c hc; rw [h] at hc; cases hc
  · intro r hr hsv
    rcases memCreate_cases Parse r u with ⟨h1, _⟩ | ⟨_, c, h1, _⟩ | ⟨_, _, h1, _⟩ | ⟨_, _, _, h1⟩
    · rw [hv] at h1; cases h1
    · simp [MemoryRepository.GetByOriginal, h1] at hr
    · rw [hsv] at h1; cases h1
    · exact h1

/-- A collision on the in-memory store: the generated code of the URL is held by
another URL. -/
theorem Create_collision_witness :
    memoryService.Create sampleParse
        (NewMemoryRepository.Save (Generate (str "https://example.com/test"))
          (str "https://example.com/other")).2 (str "https://example.com/test") =
      (Except.error (Error.wrap "short code collision detected: %w" ErrAlreadyExists),
        (NewMemoryRepository.Save (Generate (str "https://example.com/test"))
          (str "https://example.com/other")).2) ∧
    (memoryService.traced.Create sampleParse
        ((NewMemoryRepository.Save (Generate (str "https://example.com/test"))
          (str "https://example.com/other")).2, []) (str "https://example.com/test")).2.2 =
      [Call.getByOriginal (str "https://example.com/test"),
        Call.save (Generate (str "https://example.com/test")) (str "https://example.com/test")] :=
  ⟨(Create_collision sampleParse memoryService
      (NewMemoryRepository.Save (Generate (str "https://example.com/test"))
        (str "https://example.com/other")).2 [] (str "https://example.com/test")
      ErrNotFound ErrAlreadyExists rfl rfl rfl rfl rfl).2.2.2.2 _ rfl rfl,
    (Create_collision sampleParse memoryService
      (NewMemoryRepository.Save (Generate (str "https://example.com/test"))
        (str "https://example.com/other")).2 [] (str "https://example.com/test")
      ErrNotFound ErrAlreadyExists rfl rfl rfl rfl rfl).2.2.2.1⟩

/-- C13. When, for a valid URL `u`, `GetByOriginal(u)` reports `ErrNotFound` and `Save`
reports `ErrDuplicate`, `Create(u)` returns no code but a failure that wraps the
`ErrDuplicate` error, and the calls it makes are one `GetByOriginal(u)` and one `Save`:
`GetByOriginal` is not called a second time. -/
theorem Create_duplicate {σ : Type} (Parse : GoString → Option URL) (s : URLService σ)
    (st : σ) (log : List Call) (u : GoString) (e e' : Error)
    (hv : validateURL Parse u = Except.ok ())
    (hg : (s.repo.GetByOriginal st u).1 = Except.error e)
    (hnf : errorsIs e ErrNotFound = true)
    (hs : (s.repo.Save (s.repo.GetByOriginal st u).2 (Generate u) u).1 = Except.error e')
    (hd : errorsIs e' ErrDuplicate = true) :
    (s.Create Parse st u).1 = Except.error (Error.wrap "failed to save URL: %w" e') ∧
    errorsIs (Error.wrap "failed to save URL: %w" e') ErrDuplicate = true ∧
    (∀ c, (s.Create Parse st u).1 ≠ Except.ok c) ∧
    (s.traced.Create Parse (st, log) u).2.2 =
      log ++ [Call.getByOriginal u, Call.save (Generate u) u] := by
  have hna : ¬ errorsIs e' ErrAlreadyExists = true := by
    intro hae
    have := errorsIs_new_unique e' _ _ _ _ hae hd
    exact absurd this (by decide)
  have h := Create_save_failure Parse s st u e e' hv hg hnf hs
  rw [if_neg hna] at h
  refine ⟨by rw [h], ?_, ?_, traced_Create_save_failure Parse s st log u e e' hv hg hnf hs⟩
  · rw [ErrDuplicate, errorsIs_wrap_new]; exact hd
  · intro c hc; rw [h] at hc; cases hc

/-- A `Create` that lost the race: the repository says not found, then duplicate. -/
theorem Create_duplicate_witness :
    (URLService.Create sampleParse { repo := racingRepo } () (str "https://example.com/test")).1 =
      Except.error (Error.wrap "failed to save URL: %w" ErrDuplicate) ∧
    (URLService.Create sampleParse (URLService.traced { repo := racingRepo }) ((), [])
        (str "https://example.com/test")).2.2 =
      [Call.getByOriginal (str "https://example.com/test"),
        Call.save (Generate (str "https://example.com/test")) (str "https://example.com/test")] :=
  ⟨(Create_duplicate sampleParse { repo := racingRepo } () [] (str "https://example.com/test")
      ErrNotFound ErrDuplicate rfl rfl rfl rfl rfl).1,
    (Create_duplicate sampleParse { repo := racingRepo } () [] (str "https://example.com/test")
      ErrNotFound ErrDuplicate rfl rfl rfl rfl rfl).2.2.2⟩


/-! ## The HTTP handlers -/

theorem TrimSuffix_slash (b : GoString) : TrimSuffix (b ++ str "/") (str "/") = b := by
  have h : (str "/").isSuffixOf (b ++ str "/") = true := by
    rw [List.isSuffixOf_iff_suffix]
    exact List.suffix_append _ _
  simp [TrimSuffix, h]

theorem hexEscapeNonASCII_ascii (s : GoString) (h : ∀ b ∈ s, b.val < 0x80) :
    hexEscapeNonASCII s = s := by
  induction s with
  | nil => rfl
  | cons b rest ih =>
    have hb : ¬ b.val ≥ 0x80 := by
      have := h b (List.mem_cons_self _ _)
      omega
    have hr := ih fun x hx => h x (List.mem_cons_of_mem _ hx)
    unfold hexEscapeNonASCII at hr ⊢
    rw [List.flatMap_cons, hr, if_neg hb]
    rfl

/-- The `Location` that `http.Redirect` writes for a target that is not relative. -/
theorem httpRedirect_absolute (Parse : GoString → Option URL)
    (absolutize : GoString → GoString → GoString) (requestPath url : GoString) (code : Nat)
    (h : ∀ u, Parse url = some u → u.Scheme ≠ [] ∨ u.Host ≠ []) :
    httpRedirect Parse absolutize requestPath url code =
      Response.Redirect (hexEscapeNonASCII url) code := by
  unfold httpRedirect
  cases hp : Parse url with
  | none => rfl
  | some u =>
    have hn : ¬ (u.Scheme = [] ∧ u.Host = []) := by
      rintro ⟨h1, h2⟩
      rcases h u hp with h3 | h3
      · exact h3 h1
      · exact h3 h2
    simp only [if_neg hn]

theorem validated_absolute (Parse : GoString → Option URL) (url : GoString)
    (hv : validateURL Parse url = Except.ok ()) :
    ∀ u, Parse url = some u → u.Scheme ≠ [] ∨ u.Host ≠ [] := by
  intro u hp
  right
  intro hh
  have : validateURL Parse url = Except.error ErrInvalidURL :=
    (validateURL_error_iff Parse url).2 (Or.inr (Or.inr ⟨u, hp, Or.inr hh⟩))
  rw [hv] at this
  cases this

set_option maxRecDepth 1000000 in
/-- C19, the claim as stated fails: `Create` accepts `https://example.com/é` on the
empty store, and the `GET` of its code is answered 302 with the `Location`
`https://example.com/%c3%a9`, which is not the original URL. -/
theorem Redirect_location_not_original :
    (memoryService.Create sampleParse NewMemoryRepository (str "https://example.com/é")).1 =
      Except.ok (Generate (str "https://example.com/é")) ∧
    ((NewURLHandler memoryService (str "http://localhost:8080")).Redirect sampleParse
        (fun _ target => target)
        (memoryService.Create sampleParse NewMemoryRepository (str "https://example.com/é")).2
        (str "GET") (str "/" ++ Generate (str "https://example.com/é"))).1 =
      Response.Redirect (str "https://example.com/%c3%a9") 302 ∧
    Response.Redirect (str "https://example.com/%c3%a9") 302 ≠
      Response.Redirect (str "https://example.com/é") 302 :=
  ⟨rfl, by decide, by decide⟩

/-- C19, amended. The handlers classify the outcomes of the service. `Shorten`, on a
`POST` with a decoded body: 400 when the `url` field is empty; 201 with `short_url`
equal to the base URL (one trailing `/` trimmed), `/` and the code when `Create`
succeeds; 400 when `Create` fails with an error that is `ErrInvalidURL`; 500 for every
other failure of `Create`, among them the collision, the duplicate and a storage
failure. `Redirect`, on a `GET`: 400 for an empty path; 404 when `Resolve` fails with an
error that is `ErrNotFound`, as it does for a malformed code; 500 for every other
failure of `Resolve`; 302 when `Resolve` succeeds, with `Location` equal to the original
URL in which every non-ASCII byte is replaced by its percent-escape, hence to the
original URL itself when that is ASCII, for an original URL with a scheme or a host, as
every URL that passes validation has. -/
theorem handler_responses {σ : Type} (Parse : GoString → Option URL)
    (absolutize : GoString → GoString → GoString) (svc : URLService σ)
    (base : GoString) (st : σ) :
    (∀ req : ShortenRequest, req.URL = [] →
      (NewURLHandler svc base).Shorten Parse st (str "POST") (some req) =
        (Response.sendJSON (Payload.ErrorResponse "url is required") 400, st)) ∧
    (∀ (req : ShortenRequest) (code : GoString) (st1 : σ), req.URL ≠ [] →
      svc.Create Parse st req.URL = (Except.ok code, st1) →
      (NewURLHandler svc base).Shorten Parse st (str "POST") (some req) =
        (Response.sendJSON
          (Payload.ShortenResponse (TrimSuffix base (str "/") ++ str "/" ++ code)) 201, st1)) ∧
    (∀ (req : ShortenRequest) (e : Error) (st1 : σ), req.URL ≠ [] →
      svc.Create Parse st req.URL = (Except.error e, st1) → errorsIs e ErrInvalidURL = true →
      (NewURLHandler svc base).Shorten Parse st (str "POST") (some req) =
        (Response.sendJSON (Payload.ErrorResponse "invalid URL format") 400, st1)) ∧
    (∀ (req : ShortenRequest) (e : Error) (st1 : σ), req.URL ≠ [] →
      svc.Create Parse st req.URL = (Except.error e, st1) → errorsIs e ErrInvalidURL = false →
      (NewURLHandler svc base).Shorten Parse st (str "POST") (some req) =
        (Response.sendJSON (Payload.ErrorResponse "failed to create short URL") 500, st1)) ∧
    (errorsIs ErrInvalidURL ErrInvalidURL = true ∧
      (∀ e : Error, errorsIs e ErrAlreadyExists = true ∨ errorsIs e ErrDuplicate = true →
        ∀ format : String, errorsIs (Error.wrap format e) ErrInvalidURL = false) ∧
      (∀ (ident : Nat) (text format : String), Error.new ident text ≠ ErrInvalidURL →
        errorsIs (Error.wrap format (Error.new ident text)) ErrInvalidURL = false)) ∧
    ((∀ b : GoString, TrimSuffix (b ++ str "/") (str "/") = b) ∧
      (∀ b : GoString, (str "/").isSuffixOf b = false → TrimSuffix b (str "/") = b)) ∧
    (∀ path : GoString, TrimPrefix path (str "/") = [] →
      (NewURLHandler svc base).Redirect Parse absolutize st (str "GET") path =
        (Response.sendJSON (Payload.ErrorResponse "short code is required") 400, st)) ∧
    (∀ (path : GoString) (e : Error) (st1 : σ), TrimPrefix path (str "/") ≠ [] →
      svc.Resolve st (TrimPrefix path (str "/")) = (Except.error e, st1) →
      errorsIs e ErrNotFound = true →
      (NewURLHandler svc base).Redirect Parse absolutize st (str "GET") path =
        (Response.sendJSON (Payload.ErrorResponse "short URL not found") 404, st1)) ∧
    (∀ (path : GoString) (e : Error) (st1 : σ), TrimPrefix path (str "/") ≠ [] →
      svc.Resolve st (TrimPrefix path (str "/")) = (Except.error e, st1) →
      errorsIs e ErrNotFound = false →
      (NewURLHandler svc base).Redirect Parse absolutize st (str "GET") path =
        (Response.sendJSON (Payload.ErrorResponse "failed to resolve short URL") 500, st1)) ∧
    (∀ path : GoString, TrimPrefix path (str "/") ≠ [] →
      Validate (TrimPrefix path (str "/")) = false →
      (NewURLHandler svc base).Redirect Parse absolutize st (str "GET") path =
        (Response.sendJSON (Payload.ErrorResponse "short URL not found") 404, st)) ∧
    (∀ (path originalURL : GoString) (st1 : σ), TrimPrefix path (str "/") ≠ [] →
      svc.Resolve st (TrimPrefix path (str "/")) = (Except.ok originalURL, st1) →
      (∃ location, (NewURLHandler svc base).Redirect Parse absolutize st (str "GET") path =
        (Response.Redirect location 302, st1)) ∧
      ((∀ u, Parse originalURL = some u → u.Scheme ≠ [] ∨ u.Host ≠ []) →
        (NewURLHandler svc base).Redirect Parse absolutize st (str "GET") path =
          (Response.Redirect (hexEscapeNonASCII originalURL) 302, st1)) ∧
      ((∀ u, Parse originalURL = some u → u.Scheme ≠ [] ∨ u.Host ≠ []) →
        (∀ b ∈ originalURL, b.val < 0x80) →
        (NewURLHandler svc base).Redirect Parse absolutize st (str "GET") path =
          (Response.Redirect originalURL 302, st1))) ∧
    (∀ url : GoString, validateURL Parse url = Except.ok () →
      ∀ u, Parse url = some u → u.Scheme ≠ [] ∨ u.Host ≠ []) ∧
    (∀ s : GoString, (∀ b ∈ s, b.val < 0x80) → hexEscapeNonASCII s = s) ∧
    (∀ (s t : GoString) (b : Byte), 0x80 ≤ b.val →
      hexEscapeNonASCII (s ++ b :: t) =
        hexEscapeNonASCII s ++ 37 :: hexDigit (b.val / 16) :: hexDigit (b.val % 16) ::
          hexEscapeNonASCII t) := by
  have hpost : ¬ (str "POST" ≠ str "POST") := fun h => h rfl
  have hget : ¬ (str "GET" ≠ str "GET") := fun h => h rfl
  refine ⟨?_, ?_, ?_, ?_, ⟨by decide, ?_, ?_⟩, ⟨TrimSuffix_slash, ?_⟩, ?_, ?_, ?_, ?_, ?_,
    validated_absolute Parse, hexEscapeNonASCII_ascii, ?_⟩
  · intro req h0
    simp only [URLHandler.Shorten, if_neg hpost, if_pos h0, sendError]
  · intro req code st1 h0 hc
    simp only [URLHandler.Shorten, if_neg hpost, if_neg h0, NewURLHandler, hc]
  · intro req e st1 h0 hc he
    simp only [URLHandler.Shorten, if_neg hpost, if_neg h0, NewURLHandler, hc, he, if_true,
      sendError]
  · intro req e st1 h0 hc he
    simp only [URLHandler.Shorten, if_neg hpost, if_neg h0, NewURLHandler, hc, he, sendError]
    simp
  · intro e he format
    rw [ErrInvalidURL, errorsIs_wrap_new]
    cases hv : errorsIs e (Error.new 4 "invalid URL format") with
    | false => rfl
    | true =>
      rcases he with he | he
      · exact absurd (errorsIs_new_unique e _ _ _ _ hv he) (by decide)
      · exact absurd (errorsIs_new_unique e _ _ _ _ hv he) (by decide)
  · intro ident text format ht
    rw [ErrInvalidURL, errorsIs_wrap_new]
    simp only [errorsIs, decide_eq_false_iff_not]
    exact ht
  · intro b hb
    simp [TrimSuffix, hb]
  · intro path h0
    simp only [URLHandler.Redirect, if_neg hget, if_pos h0, sendError]
  · intro path e st1 h0 hr he
    simp only [URLHandler.Redirect, if_neg hget, if_neg h0, NewURLHandler, hr, he, if_true,
      sendError]
  · intro path e st1 h0 hr he
    simp only [URLHandler.Redirect, if_neg hget, if_neg h0, NewURLHandler, hr, he, sendError]
    simp
  · intro path h0 hv
    have hr : svc.Resolve st (TrimPrefix path (str "/")) = (Except.error ErrNotFound, st) := by
      simp [URLService.Resolve, hv]
    have he : errorsIs ErrNotFound ErrNotFound = true := by decide
    simp only [URLHandler.Redirect, if_neg hget, if_neg h0, NewURLHandler, hr, he, if_true,
      sendError]
  · intro path originalURL st1 h0 hr
    have hred : (NewURLHandler svc base).Redirect Parse absolutize st (str "GET") path =
        (httpRedirect Parse absolutize path originalURL 302, st1) := by
      simp only [URLHandler.Redirect, if_neg hget, if_neg h0, NewURLHandler, hr]
    refine ⟨?_, ?_, ?_⟩
    · rw [hred]
      unfold httpRedirect
      cases Parse originalURL with
      | none => exact ⟨_, rfl⟩
      | some u =>
        by_cases hu : u.Scheme = [] ∧ u.Host = []
        · simp only [if_pos hu]; exact ⟨_, rfl⟩
        · simp only [if_neg hu]; exact ⟨_, rfl⟩
    · intro habs
      rw [hred, httpRedirect_absolute Parse absolutize path originalURL 302 habs]
    · intro habs hascii
      rw [hred, httpRedirect_absolute Parse absolutize path originalURL 302 habs,
        hexEscapeNonASCII_ascii originalURL hascii]
  · intro s t b hb
    have hb' : b.val ≥ 0x80 := hb
    simp only [hexEscapeNonASCII, List.flatMap_append, List.flatMap_cons, if_pos hb']
    rfl

set_option maxRecDepth 1000000 in
/-- The handler tests on the in-memory store: a valid URL is shortened with 201, an
FTP URL and a colliding URL are answered 400 and 500, the stored code redirects with
302 to the stored ASCII URL, an unknown code gives 404 and the empty path 400. -/
theorem handler_responses_witness :
    (NewURLHandler memoryService (str "http://localhost:8080/")).Shorten sampleParse
        NewMemoryRepository (str "POST") (some { URL := str "https://example.com/test" }) =
      (Response.sendJSON (Payload.ShortenResponse
          (TrimSuffix (str "http://localhost:8080/") (str "/") ++ str "/" ++
            Generate (str "https://example.com/test"))) 201,
        (NewMemoryRepository.Save (Generate (str "https://example.com/test"))
          (str "https://example.com/test")).2) ∧
    (NewURLHandler memoryService (str "http://localhost:8080")).Shorten sampleParse
        NewMemoryRepository (str "POST") (some { URL := [] }) =
      (Response.sendJSON (Payload.ErrorResponse "url is required") 400, NewMemoryRepository) ∧
    (NewURLHandler memoryService (str "http://localhost:8080")).Shorten sampleParse
        NewMemoryRepository (str "POST") (some { URL := str "ftp://example.com" }) =
      (Response.sendJSON (Payload.ErrorResponse "invalid URL format") 400,
        NewMemoryRepository) ∧
    (NewURLHandler memoryService (str "http://localhost:8080")).Shorten sampleParse
        (NewMemoryRepository.Save (Generate (str "https://example.com/test"))
          (str "https://example.com/other")).2 (str "POST")
        (some { URL := str "https://example.com/test" }) =
      (Response.sendJSON (Payload.ErrorResponse "failed to create short URL") 500,
        (NewMemoryRepository.Save (Generate (str "https://example.com/test"))
          (str "https://example.com/other")).2) ∧
    (NewURLHandler memoryService (str "http://localhost:8080")).Redirect sampleParse
        (fun _ target => target)
        (NewMemoryRepository.Save (str "abc123XYZ_") (str "https://example.com/test")).2
        (str "GET") (str "/abc123XYZ_") =
      (Response.Redirect (str "https://example.com/test") 302,
        (NewMemoryRepository.Save (str "abc123XYZ_") (str "https://example.com/test")).2) ∧
    (NewURLHandler memoryService (str "http://localhost:8080")).Redirect sampleParse
        (fun _ target => target) NewMemoryRepository (str "GET") (str "/notexist__") =
      (Response.sendJSON (Payload.ErrorResponse "short URL not found") 404,
        NewMemoryRepository) ∧
    (NewURLHandler memoryService (str "http://localhost:8080")).Redirect sampleParse
        (fun _ target => target) NewMemoryRepository (str "GET") (str "/bad") =
      (Response.sendJSON (Payload.ErrorResponse "short URL not found") 404,
        NewMemoryRepository) ∧
    (NewURLHandler memoryService (str "http://localhost:8080")).Redirect sampleParse
        (fun _ target => target) NewMemoryRepository (str "GET") (str "/") =
      (Response.sendJSON (Payload.ErrorResponse "short code is required") 400,
        NewMemoryRepository) ∧
    hexEscapeNonASCII (str "https://example.com/test") = str "https://example.com/test" :=
  ⟨(handler_responses sampleParse (fun _ target => target) memoryService
      (str "http://localhost:8080/") NewMemoryRepository).2.1
      { URL := str "https://example.com/test" } _ _ (by decide) rfl,
    (handler_responses sampleParse (fun _ target => target) memoryService
      (str "http://localhost:8080") NewMemoryRepository).1 { URL := [] } rfl,
    (handler_responses sampleParse (fun _ target => target) memoryService
      (str "http://localhost:8080") NewMemoryRepository).2.2.1
      { URL := str "ftp://example.com" } ErrInvalidURL _ (by decide) rfl (by decide),
    (handler_responses sampleParse (fun _ target => target) memoryService
      (str "http://localhost:8080")
      (NewMemoryRepository.Save (Generate (str "https://example.com/test"))
        (str "https://example.com/other")).2).2.2.2.1
      { URL := str "https://example.com/test" }
      (Error.wrap "short code collision detected: %w" ErrAlreadyExists) _ (by decide) rfl
      (by decide),
    ((handler_responses sampleParse (fun _ target => target) memoryService
      (str "http://localhost:8080")
      (NewMemoryRepository.Save (str "abc123XYZ_")
        (str "https://example.com/test")).2).2.2.2.2.2.2.2.2.2.2.1
      (str "/abc123XYZ_") (str "https://example.com/test") _ (by decide) rfl).2.2
      (fun u hu => by
        have e : sampleParse (str "https://example.com/test") =
            some { Scheme := str "https", Host := str "example.com" } := by decide
        rw [e] at hu; cases hu; exact Or.inl (by decide))
      (by decide),
    (handler_responses sampleParse (fun _ target => target) memoryService
      (str "http://localhost:8080") NewMemoryRepository).2.2.2.2.2.2.2.1
      (str "/notexist__") ErrNotFound _ (by decide) rfl (by decide),
    (handler_responses sampleParse (fun _ target => target) memoryService
      (str "http://localhost:8080") NewMemoryRepository).2.2.2.2.2.2.2.2.2.1
      (str "/bad") (by decide) (by decide),
    (handler_responses sampleParse (fun _ target => target) memoryService
      (str "http://localhost:8080") NewMemoryRepository).2.2.2.2.2.2.1 (str "/") (by decide),
    (handler_responses sampleParse (fun _ target => target) memoryService
      (str "http://localhost:8080") NewMemoryRepository).2.2.2.2.2.2.2.2.2.2.2.2.1
      (str "https://example.com/test") (by decide)⟩

/-! ## The persistent store against the in-memory store -/

theorem find_none_of_any_false {α : Type} (p : α → Bool) (l : List α) (h : l.any p = false) :
    l.find? p = none := by
  rw [List.find?_eq_none]
  intro x hx hp
  have : l.any p = true := List.any_eq_true.2 ⟨x, hx, hp⟩
  rw [h] at this; cases this

theorem any_true_of_find_some {α : Type} (p : α → Bool) (l : List α) (x : α)
    (h : l.find? p = some x) : l.any p = true :=
  List.any_eq_true.2 ⟨x, List.mem_of_find?_eq_some h, List.find?_some h⟩

/-- When the code is in the table both stores answer alike: success for the same URL,
`ErrAlreadyExists` for another one, and nothing is written. -/
theorem postgres_Save_code_present (t : Table) (code url : GoString) (row : GoString × GoString)
    (h : t.find? (fun row => row.1 = code) = some row) :
    PostgresRepository.Save t code url =
      (if row.2 = url then Except.ok () else Except.error ErrAlreadyExists, t) ∧
    (Table.toMemory t).Save code url =
      (if row.2 = url then Except.ok () else Except.error ErrAlreadyExists, Table.toMemory t) := by
  have ha := any_true_of_find_some _ t row h
  constructor
  · simp only [PostgresRepository.Save, execInsert, ha, if_true, PostgresRepository.Get,
      queryOriginal, h]
    by_cases hu : row.2 = url <;> simp [hu]
  · have hm : (Table.toMemory t).shortToOriginal code = some row.2 := by
      simp [Table.toMemory, h]
    simp only [MemoryRepository.Save, hm]
    by_cases hu : row.2 = url <;> simp [hu]

/-- When neither the code nor the URL is in the table both stores insert the pair. -/
theorem postgres_Save_fresh (t : Table) (code url : GoString)
    (h1 : t.any (fun row => row.1 = code) = false)
    (h2 : t.any (fun row => row.2 = url) = false) :
    PostgresRepository.Save t code url = (Except.ok (), t ++ [(code, url)]) ∧
    ((Table.toMemory t).Save code url).1 = Except.ok () ∧
    ∀ k : GoString,
      ((Table.toMemory t).Save code url).2.shortToOriginal k =
        (Table.toMemory (t ++ [(code, url)])).shortToOriginal k ∧
      ((Table.toMemory t).Save code url).2.originalToShort k =
        (Table.toMemory (t ++ [(code, url)])).originalToShort k := by
  have f1 := find_none_of_any_false _ t h1
  have f2 := find_none_of_any_false _ t h2
  have m1 : (Table.toMemory t).shortToOriginal code = none := by simp [Table.toMemory, f1]
  have m2 : (Table.toMemory t).originalToShort url = none := by simp [Table.toMemory, f2]
  have hsave : (Table.toMemory t).Save code url = (Except.ok (),
      { shortToOriginal := (Table.toMemory t).shortToOriginal.set code url,
        originalToShort := (Table.toMemory t).originalToShort.set url code }) := by
    simp only [MemoryRepository.Save, m1, m2]
  refine ⟨?_, by rw [hsave], ?_⟩
  · simp [PostgresRepository.Save, execInsert, h1, h2]
  · intro k
    rw [hsave]
    simp only [Table.toMemory, GoMap.set, List.find?_append]
    constructor
    · by_cases hk : k = code
      · subst hk; simp [f1]
      · have : ¬ code = k := fun e => hk e.symm
        simp [hk, this]
    · by_cases hk : k = url
      · subst hk; simp [f2]
      · have : ¬ url = k := fun e => hk e.symm
        simp [hk, this]

/-- When the code is free and the URL is in the table the stores differ: the insertion
fails on the unique URL column with an error that is not `sql.ErrNoRows`, so the
persistent store wraps it as a generic failure, where the in-memory store answers
`ErrDuplicate`. -/
theorem postgres_Save_url_taken (t : Table) (code url : GoString)
    (h1 : t.any (fun row => row.1 = code) = false)
    (h2 : t.any (fun row => row.2 = url) = true) :
    PostgresRepository.Save t code url =
      (Except.error (Error.wrap "failed to save URL: %w" uniqueViolation), t) ∧
    errorsIs (Error.wrap "failed to save URL: %w" uniqueViolation) ErrDuplicate = false ∧
    ((Table.toMemory t).Save code url).1 = Except.error ErrDuplicate := by
  have f1 := find_none_of_any_false _ t h1
  have m1 : (Table.toMemory t).shortToOriginal code = none := by simp [Table.toMemory, f1]
  have hne : errorsIs uniqueViolation sqlErrNoRows = false := by decide
  refine ⟨?_, by decide, ?_⟩
  · simp only [PostgresRepository.Save, execInsert, h1, h2]
    simp [hne]
  · cases hf : t.find? (fun row => row.2 = url) with
    | none =>
      rw [List.find?_eq_none] at hf
      obtain ⟨x, hx, hp⟩ := List.any_eq_true.1 h2
      exact absurd hp (hf x hx)
    | some row =>
      have m2 : (Table.toMemory t).originalToShort url = some row.1 := by
        simp [Table.toMemory, hf]
      have hc : row.1 ≠ code := by
        intro e
        have : t.any (fun row => row.1 = code) = true :=
          List.any_eq_true.2 ⟨row, List.mem_of_find?_eq_some hf, by simp [e]⟩
        rw [h1] at this; cases this
      simp [MemoryRepository.Save, m1, m2, hc]

/-- C20, at the failing input: on the table holding `abc123XYZ_` for
`https://example.com/a`, `Save("0123456789", "https://example.com/a")` of the persistent
store returns the wrapped driver error, which is not `ErrDuplicate` under `errors.Is`
and leaves the table as it was, while `Save` of the in-memory store on the same
content returns `ErrDuplicate`. -/
theorem postgres_Save_not_duplicate :
    PostgresRepository.Save [(str "abc123XYZ_", str "https://example.com/a")]
        (str "0123456789") (str "https://example.com/a") =
      (Except.error (Error.wrap "failed to save URL: %w" uniqueViolation),
        [(str "abc123XYZ_", str "https://example.com/a")]) ∧
    errorsIs (Error.wrap "failed to save URL: %w" uniqueViolation) ErrDuplicate = false ∧
    ((Table.toMemory [(str "abc123XYZ_", str "https://example.com/a")]).Save
        (str "0123456789") (str "https://example.com/a")).1 = Except.error ErrDuplicate ∧
    ((NewMemoryRepository.Save (str "abc123XYZ_") (str "https://example.com/a")).2.Save
        (str "0123456789") (str "https://example.com/a")).1 = Except.error ErrDuplicate :=
  ⟨rfl, by decide, rfl, rfl⟩


/-! ## Codes stored and returned by `Create` -/

/-- C22. In every state of the in-memory store reachable from the empty store by
`Create` calls alone every stored mapping `(c, u)`, in either index, has
`c = Generate u`; consequently every successful `Create(u)` returns exactly
`Generate u`, a 10-character code that passes `Validate`, whether the code was freshly
generated or returned by the existing-mapping short-circuit. -/
theorem created_codes_generated (Parse : GoString → Option URL) (r : MemoryRepository)
    (h : CreateReachable Parse r) :
    (∀ c u : GoString, r.shortToOriginal c = some u → c = Generate u) ∧
    (∀ u c : GoString, r.originalToShort u = some c → c = Generate u) ∧
    (∀ (u c : GoString) (r1 : MemoryRepository),
      memoryService.Create Parse r u = (Except.ok c, r1) →
        c = Generate u ∧ c.length = 10 ∧ Validate c = true) ∧
    (∀ u c : GoString, r.originalToShort u = some c → validateURL Parse u = Except.ok () →
      memoryService.Create Parse r u = (Except.ok (Generate u), r)) := by
  have hi := createReachable_inv Parse r h
  have hc := reachable_consistent r hi.1
  have h2 : ∀ u c : GoString, r.originalToShort u = some c → c = Generate u :=
    fun u c hu => hi.2 c u ((hc c u).2 hu)
  refine ⟨hi.2, h2, ?_, ?_⟩
  · intro u c r1 hcr
    have hg : c = Generate u := by
      rcases (memCreate_ok Parse r u c r1 hcr).2 with ⟨_, h1⟩ | ⟨_, h1, _⟩ | ⟨h1, _⟩
      · exact h2 u c h1
      · exact h1
      · exact h1
    rw [hg]
    exact ⟨rfl, Generate_length u, Validate_Generate u⟩
  · intro u c hu hv
    have := memCreate_of_mapped Parse r u c hv hu
    rw [h2 u c hu] at this
    exact this

/-- After a first `Create`, the second `Create` of the same URL returns the generated
code through the short-circuit. -/
theorem created_codes_generated_witness :
    Generate (str "https://example.com/test") = Generate (str "https://example.com/test") ∧
    (Generate (str "https://example.com/test")).length = 10 ∧
    Validate (Generate (str "https://example.com/test")) = true :=
  (created_codes_generated sampleParse
    (memoryService.Create sampleParse NewMemoryRepository (str "https://example.com/test")).2
    (CreateReachable.create _ _ CreateReachable.init)).2.2.1
    (str "https://example.com/test") (Generate (str "https://example.com/test"))
    (NewMemoryRepository.Save (Generate (str "https://example.com/test"))
      (str "https://example.com/test")).2 rfl

/-- C23. For a valid URL `u` and any repository whose `GetByOriginal(u)` fails with an
error that is not `ErrNotFound` under `errors.Is`, `Create(u)` returns a failure
wrapping that error and the only call it makes is that `GetByOriginal`: `Save` is not
called. For every repository and URL, a `Save` among the calls of `Create` means that
`GetByOriginal` failed with an error that is `ErrNotFound`. Every value of `errors.New`
other than the sentinel itself is such an other error, whatever its text, the text
`URL not found` included. -/
theorem Create_read_failure {σ : Type} (Parse : GoString → Option URL) (s : URLService σ)
    (st : σ) (log : List Call) (u : GoString) :
    (∀ e : Error, validateURL Parse u = Except.ok () →
      (s.repo.GetByOriginal st u).1 = Except.error e → errorsIs e ErrNotFound = false →
      s.Create Parse st u =
        (Except.error (Error.wrap "failed to check existing URL: %w" e),
          (s.repo.GetByOriginal st u).2) ∧
      (∀ target : Error, errorsIs e target = true →
        errorsIs (Error.wrap "failed to check existing URL: %w" e) target = true) ∧
      (s.traced.Create Parse (st, log) u).2.2 = log ++ [Call.getByOriginal u]) ∧
    (∀ code url : GoString, Call.save code url ∈ (s.traced.Create Parse (st, []) u).2.2 →
      validateURL Parse u = Except.ok () ∧ code = Generate u ∧ url = u ∧
      ∃ e, (s.repo.GetByOriginal st u).1 = Except.error e ∧ errorsIs e ErrNotFound = true) ∧
    ((∀ (ident : Nat) (text : String), Error.new ident text ≠ ErrNotFound →
        errorsIs (Error.new ident text) ErrNotFound = false) ∧
      (∀ ident : Nat, ident ≠ 1 → errorsIs (Error.new ident "URL not found") ErrNotFound = false) ∧
      (∀ e : Error, errorsIs e ErrNotFound = true →
        e = ErrNotFound ∨ ∃ format e', e = Error.wrap format e' ∧
          errorsIs e' ErrNotFound = true)) := by
  have key : ∀ {τ : Type} (t : URLService τ) (x : τ) (e : Error),
      validateURL Parse u = Except.ok () →
      (t.repo.GetByOriginal x u).1 = Except.error e → errorsIs e ErrNotFound = false →
      t.Create Parse x u =
        (Except.error (Error.wrap "failed to check existing URL: %w" e),
          (t.repo.GetByOriginal x u).2) := by
    intro τ t x e hv hg hnf
    rcases Create_cases Parse t x u with ⟨h1, _⟩ | ⟨_, h⟩
    · rw [hv] at h1; cases h1
    · rcases h with ⟨c, h1, _⟩ | ⟨e0, h1, _, h3⟩ | ⟨e0, h1, h2, _⟩
      · rw [hg] at h1; cases h1
      · rw [hg] at h1; cases h1; exact h3
      · rw [hg] at h1; cases h1; rw [hnf] at h2; cases h2
  refine ⟨?_, ?_, ?_, ?_, ?_⟩
  · intro e hv hg hnf
    refine ⟨key s st e hv hg hnf, ?_, ?_⟩
    · intro target ht
      simp [errorsIs, ht]
    · have := key s.traced (st, log) e hv hg hnf
      rw [this]
      simp [URLService.traced, URLRepository.traced]
  · intro code url hm
    rcases Create_cases Parse s.traced (st, []) u with ⟨_, e⟩ | ⟨hv, h⟩
    · rw [e] at hm; simp at hm
    · rcases h with ⟨c, _, e⟩ | ⟨e0, _, _, e⟩ | ⟨e0, h1, h2, h3⟩
      · rw [e] at hm
        simp [URLService.traced, URLRepository.traced] at hm
      · rw [e] at hm
        simp [URLService.traced, URLRepository.traced] at hm
      · have hm' : Call.save code url ∈
            [Call.getByOriginal u, Call.save (Generate u) u] := by
          rcases h3 with ⟨_, e⟩ | ⟨e', _, e⟩
          · rw [e] at hm
            simpa [URLService.traced, URLRepository.traced] using hm
          · rw [e] at hm
            simpa [URLService.traced, URLRepository.traced] using hm
        simp at hm'
        exact ⟨hv, hm'.1, hm'.2, e0, h1, h2⟩
  · intro ident text hne
    simp only [errorsIs, decide_eq_false_iff_not]
    exact hne
  · intro ident hne
    simp only [errorsIs, ErrNotFound, decide_eq_false_iff_not]
    intro h
    cases h
    exact hne rfl
  · intro e he
    cases e with
    | new ident text =>
      left
      simp only [errorsIs, decide_eq_true_eq] at he
      exact he
    | wrap format e' =>
      right
      rw [ErrNotFound, errorsIs_wrap_new] at he
      exact ⟨format, e', rfl, he⟩

/-- A `Create` on a store that cannot be reached, and one on a store that fails with
its own error of text `URL not found`: one `GetByOriginal`, no `Save`, and the error
wrapped. -/
theorem Create_read_failure_witness :
    URLService.Create sampleParse { repo := brokenRepo } () (str "https://example.com/test") =
      (Except.error (Error.wrap "failed to check existing URL: %w"
        (Error.new 7 "connection refused")), ()) ∧
    (URLService.Create sampleParse (URLService.traced { repo := brokenRepo }) ((), [])
        (str "https://example.com/test")).2.2 =
      [Call.getByOriginal (str "https://example.com/test")] ∧
    URLService.Create sampleParse { repo := lookalikeRepo } () (str "https://example.com/test") =
      (Except.error (Error.wrap "failed to check existing URL: %w"
        (Error.new 8 "URL not found")), ()) ∧
    (URLService.Create sampleParse (URLService.traced { repo := lookalikeRepo }) ((), [])
        (str "https://example.com/test")).2.2 =
      [Call.getByOriginal (str "https://example.com/test")] ∧
    (sampleParse (str "https://example.com/test") ≠ none ∧
      Generate (str "https://example.com/test") = Generate (str "https://example.com/test")) :=
  ⟨((Create_read_failure sampleParse { repo := brokenRepo } () []
      (str "https://example.com/test")).1 (Error.new 7 "connection refused") rfl rfl rfl).1,
    ((Create_read_failure sampleParse { repo := brokenRepo } () []
      (str "https://example.com/test")).1 (Error.new 7 "connection refused") rfl rfl rfl).2.2,
    ((Create_read_failure sampleParse { repo := lookalikeRepo } () []
      (str "https://example.com/test")).1 (Error.new 8 "URL not found") rfl rfl
      ((Create_read_failure sampleParse { repo := lookalikeRepo } () []
        (str "https://example.com/test")).2.2.2.1 8 (by decide))).1,
    ((Create_read_failure sampleParse { repo := lookalikeRepo } () []
      (str "https://example.com/test")).1 (Error.new 8 "URL not found") rfl rfl rfl).2.2,
    by decide,
    ((Create_read_failure sampleParse memoryService NewMemoryRepository []
      (str "https://example.com/test")).2.1 (Generate (str "https://example.com/test"))
      (str "https://example.com/test") (List.mem_cons_of_mem _ (List.mem_singleton.2 rfl))).2.1⟩

/-- C24. Executed sequentially against the in-memory store in any state, `Create(u)`
for a valid URL `u` never fails with `ErrDuplicate`: it fails if and only if `u` has no
mapping and `Generate u` is already mapped to a different URL, and then with the
`ErrAlreadyExists` collision; on the empty store it always succeeds. -/
theorem Create_never_duplicate (Parse : GoString → Option URL) (r : MemoryRepository)
    (u : GoString) (hv : validateURL Parse u = Except.ok ()) :
    (∀ e : Error, (memoryService.Create Parse r u).1 = Except.error e →
      errorsIs e ErrDuplicate = false ∧ errorsIs e ErrAlreadyExists = true ∧
      e = Error.wrap "short code collision detected: %w" ErrAlreadyExists) ∧
    ((∃ e : Error, (memoryService.Create Parse r u).1 = Except.error e) ↔
      r.originalToShort u = none ∧ ∃ v, r.shortToOriginal (Generate u) = some v ∧ v ≠ u) ∧
    memoryService.Create Parse NewMemoryRepository u =
      (Except.ok (Generate u), (NewMemoryRepository.Save (Generate u) u).2) := by
  have hnew : memoryService.Create Parse NewMemoryRepository u =
      (Except.ok (Generate u), (NewMemoryRepository.Save (Generate u) u).2) := by
    rcases memCreate_cases Parse NewMemoryRepository u with ⟨h1, _⟩ | ⟨_, c, h1, _⟩ |
      ⟨_, _, _, e⟩ | ⟨_, _, h1, _⟩
    · rw [hv] at h1; cases h1
    · simp [NewMemoryRepository] at h1
    · exact e
    · have : (NewMemoryRepository.Save (Generate u) u).1 = Except.ok () := rfl
      rw [h1] at this; cases this
  rcases memCreate_cases Parse r u with ⟨h1, _⟩ | ⟨_, c, h1, e⟩ | ⟨_, h1, h2, e⟩ | ⟨_, h1, h2, e⟩
  · rw [hv] at h1; cases h1
  · refine ⟨?_, ?_, hnew⟩
    · intro e' he; rw [e] at he; cases he
    · rw [e, h1]; simp
  · refine ⟨?_, ?_, hnew⟩
    · intro e' he; rw [e] at he; cases he
    · rw [e]
      constructor
      · rintro ⟨e', he⟩; cases he
      · rintro ⟨_, v, hv1, hv2⟩
        rcases Save_cases r (Generate u) u with ⟨u', h3, h4, _⟩ | ⟨_, _, _, e'⟩ |
          ⟨_, _, _, _, e'⟩ | ⟨h3, _⟩ | ⟨h3, _⟩
        · rw [hv1] at h3; cases h3; exact absurd h4 hv2
        · rw [e'] at h2; cases h2
        · rw [e'] at h2; cases h2
        · rw [hv1] at h3; cases h3
        · rw [hv1] at h3; cases h3
  · refine ⟨?_, ?_, hnew⟩
    · intro e' he
      rw [e] at he
      cases he
      exact ⟨by decide, by decide, rfl⟩
    · rw [e]
      constructor
      · intro _
        refine ⟨h1, ?_⟩
        rcases Save_cases r (Generate u) u with ⟨_, _, _, e'⟩ | ⟨u', h3, h4, _⟩ |
          ⟨_, _, _, _, e'⟩ | ⟨_, _, e'⟩ | ⟨_, _, e'⟩
        · rw [e'] at h2; cases h2
        · exact ⟨u', h3, h4⟩
        · rw [e'] at h2; simp [ErrDuplicate, ErrAlreadyExists] at h2
        · rw [e'] at h2; cases h2
        · rw [e'] at h2; cases h2
      · intro _; exact ⟨_, rfl⟩

/-- The collision and the first creation on concrete stores. -/
theorem Create_never_duplicate_witness :
    errorsIs (Error.wrap "short code collision detected: %w" ErrAlreadyExists) ErrDuplicate =
      false ∧
    memoryService.Create sampleParse NewMemoryRepository (str "https://example.com/test") =
      (Except.ok (Generate (str "https://example.com/test")),
        (NewMemoryRepository.Save (Generate (str "https://example.com/test"))
          (str "https://example.com/test")).2) :=
  ⟨((Create_never_duplicate sampleParse
      (NewMemoryRepository.Save (Generate (str "https://example.com/test"))
        (str "https://example.com/other")).2 (str "https://example.com/test") rfl).1
      (Error.wrap "short code collision detected: %w" ErrAlreadyExists) rfl).1,
    (Create_never_duplicate sampleParse NewMemoryRepository (str "https://example.com/test")
      rfl).2.2⟩

/-- C25. In every state of the in-memory store reachable from the empty store by
`Save` and `Clear` calls the branch of `Save` that returns success because the URL
index holds `url → code` while the code index has no entry for `code` is never taken:
whenever `code` is unmapped and `url` is mapped, `url` is mapped to a different code
and the result is `ErrDuplicate`, with the store unchanged. -/
theorem Save_dead_branch (r : MemoryRepository) (code url : GoString) (h : Reachable r) :
    ¬ (r.shortToOriginal code = none ∧ r.originalToShort url = some code) ∧
    (∀ c', r.shortToOriginal code = none → r.originalToShort url = some c' →
      c' ≠ code ∧ r.Save code url = (Except.error ErrDuplicate, r)) ∧
    ((r.Save code url).1 = Except.ok () →
      r.shortToOriginal code = some url ∨
        (r.shortToOriginal code = none ∧ r.originalToShort url = none)) := by
  have hc := reachable_consistent r h
  have h1 : ¬ (r.shortToOriginal code = none ∧ r.originalToShort url = some code) := by
    rintro ⟨hn, hs⟩
    rw [(hc code url).2 hs] at hn
    cases hn
  refine ⟨h1, ?_, ?_⟩
  · intro c' hn hs
    have hne : c' ≠ code := by
      intro e; rw [e] at hs; exact h1 ⟨hn, hs⟩
    refine ⟨hne, ?_⟩
    simp [MemoryRepository.Save, hn, hs, hne]
  · intro hok
    rcases Save_cases r code url with ⟨u', h2, h3, _⟩ | ⟨_, _, _, e⟩ | ⟨_, _, _, _, e⟩ |
      ⟨h2, h3, _⟩ | ⟨h2, h3, _⟩
    · left; rw [h2, h3]
    · rw [e] at hok; cases hok
    · rw [e] at hok; cases hok
    · exact absurd ⟨h2, h3⟩ h1
    · right; exact ⟨h2, h3⟩

/-- The duplicate of the store test: the URL is held by another code. -/
theorem Save_dead_branch_witness :
    str "abc123XYZ_" ≠ str "xyz789ABC_" ∧
    (NewMemoryRepository.Save (str "abc123XYZ_") (str "https://example.com/test")).2.Save
        (str "xyz789ABC_") (str "https://example.com/test") =
      (Except.error ErrDuplicate,
        (NewMemoryRepository.Save (str "abc123XYZ_") (str "https://example.com/test")).2) :=
  (Save_dead_branch
    (NewMemoryRepository.Save (str "abc123XYZ_") (str "https://example.com/test")).2
    (str "xyz789ABC_") (str "https://example.com/test")
    (Reachable.save _ _ _ Reachable.init)).2.1 (str "abc123XYZ_") (by decide) (by decide)


/-! ## The number of codes -/

theorem Generate_eq_codeOfDigest (u : GoString) : Generate u = codeOfDigest (sha256.Sum256 u) :=
  rfl

theorem codeOfDigest_eq (d : GoString) (h : d.length = 32) :
    codeOfDigest d = ((base64.EncodeToString d).take 10).map (fun b => if b = 45 then 95 else b) := by
  have hl : (ReplaceAll (base64.EncodeToString d) 45 95).length = 43 := by
    simp [ReplaceAll, EncodeToString_length, h]
  simp only [codeOfDigest, hl, ShortURLLength]
  simp [ReplaceAll, List.map_take]

theorem Generate_mem_base62 (u : GoString) : ∀ b ∈ Generate u, b ∈ base62Chars := by
  intro b hb
  rw [base62Chars_facts.2.2 b]
  exact ((Validate_eq_true_iff _).1 (Validate_Generate u)).2 b hb

/-- The strings of length `n` over the characters of a list without repetition, as the
image of the vectors over that alphabet: a function into them takes at most
`|L| ^ n` values. -/
theorem codes_card_le (L : List Byte) (n : Nat) (hL : L.Nodup) (U : Finset GoString)
    (f : GoString → GoString) (hlen : ∀ u, (f u).length = n) (hmem : ∀ u, ∀ b ∈ f u, b ∈ L) :
    (U.image f).card ≤ L.length ^ n := by
  let g : Mathlib.Vector {b : Byte // b ∈ L.toFinset} n → GoString :=
    fun v => v.toList.map Subtype.val
  have hsub : U.image f ⊆ Finset.univ.image g := by
    intro c hc
    rw [Finset.mem_image] at hc
    obtain ⟨u, _, rfl⟩ := hc
    rw [Finset.mem_image]
    have hm : ∀ b ∈ f u, b ∈ L.toFinset := fun b hb => List.mem_toFinset.2 (hmem u b hb)
    refine ⟨⟨(f u).pmap (fun b hb => (⟨b, hb⟩ : {b : Byte // b ∈ L.toFinset})) hm,
      by simp [hlen u]⟩, Finset.mem_univ _, ?_⟩
    show ((f u).pmap (fun b hb => (⟨b, hb⟩ : {b : Byte // b ∈ L.toFinset})) hm).map
      Subtype.val = f u
    rw [List.map_pmap]
    simp
  have hcard : (Finset.univ : Finset (Mathlib.Vector {b : Byte // b ∈ L.toFinset} n)).card =
      L.length ^ n := by
    rw [Finset.card_univ, card_vector, Fintype.card_coe, List.toFinset_card_of_nodup hL]
  calc (U.image f).card ≤ (Finset.univ.image g).card := Finset.card_le_card hsub
    _ ≤ (Finset.univ : Finset (Mathlib.Vector {b : Byte // b ∈ L.toFinset} n)).card :=
        Finset.card_image_le
    _ = L.length ^ n := hcard

theorem map_replace_eq (a b : GoString)
    (h : List.Forall₂ (fun x y : Byte => x = y ∨ (x = 45 ∧ y = 95) ∨ (x = 95 ∧ y = 45)) a b) :
    a.map (fun x => if x = 45 then (95 : Byte) else x) =
      b.map (fun x => if x = 45 then (95 : Byte) else x) := by
  induction h with
  | nil => rfl
  | cons hxy _ ih =>
    rw [List.map_cons, List.map_cons, ih]
    rcases hxy with e | ⟨e1, e2⟩ | ⟨e1, e2⟩
    · rw [e]
    · rw [e1, e2]; rfl
    · rw [e1, e2]; rfl

set_option maxRecDepth 100000 in
/-- C26. `Generate` produces at most `63 ^ 10` distinct codes, fewer than `64 ^ 10`:
the symbols of value 62 (`-`) and 63 (`_`) of the encoding become the same character
`_`, so two digests whose first ten symbols differ only by `-` against `_` in some
positions yield the same code, as the digests `F8 00 ..` and `FC 00 ..` do, whose first
six bits are 62 and 63. -/
theorem Generate_codes_bound :
    (∀ U : Finset GoString, (U.image Generate).card ≤ 63 ^ 10) ∧
    63 ^ 10 < 64 ^ 10 ∧
    (base64.enc 62 = 45 ∧ base64.enc 63 = 95 ∧
      ReplaceAll [base64.enc 62] 45 95 = ReplaceAll [base64.enc 63] 45 95) ∧
    (∀ u : GoString, Generate u = codeOfDigest (sha256.Sum256 u)) ∧
    (∀ d₁ d₂ : GoString, d₁.length = 32 → d₂.length = 32 →
      List.Forall₂ (fun x y : Byte => x = y ∨ (x = 45 ∧ y = 95) ∨ (x = 95 ∧ y = 45))
        ((base64.EncodeToString d₁).take 10) ((base64.EncodeToString d₂).take 10) →
      codeOfDigest d₁ = codeOfDigest d₂) ∧
    (codeOfDigest (0xF8 :: List.replicate 31 0) = codeOfDigest (0xFC :: List.replicate 31 0) ∧
      codeOfDigest (0xF8 :: List.replicate 31 0) = str "_AAAAAAAAA" ∧
      (base64.EncodeToString (0xF8 :: List.replicate 31 0)).take 10 = str "-AAAAAAAAA" ∧
      (base64.EncodeToString (0xFC :: List.replicate 31 0)).take 10 = str "_AAAAAAAAA" ∧
      (0xF8 : Byte).val / 4 = 62 ∧ (0xFC : Byte).val / 4 = 63) := by
  refine ⟨?_, by decide, by decide, Generate_eq_codeOfDigest, ?_, by decide⟩
  · intro U
    have h := codes_card_le base62Chars 10 base62Chars_facts.2.1 U Generate Generate_length
      Generate_mem_base62
    rw [base62Chars_facts.1] at h
    exact h
  · intro d₁ d₂ h1 h2 hf
    rw [codeOfDigest_eq d₁ h1, codeOfDigest_eq d₂ h2]
    exact map_replace_eq _ _ hf

set_option maxRecDepth 100000 in
/-- Two digests that differ in their first six bits, 62 against 63, and have the same
code. -/
theorem Generate_codes_bound_witness :
    codeOfDigest (0xFB :: 0xE0 :: List.replicate 30 0) =
      codeOfDigest (0xFF :: 0xF0 :: List.replicate 30 0) :=
  Generate_codes_bound.2.2.2.2.1 (0xFB :: 0xE0 :: List.replicate 30 0)
    (0xFF :: 0xF0 :: List.replicate 30 0) (by decide) (by decide) (by decide)


/-! ## Interleavings of `Create` calls -/

theorem lookup_step (Parse : GoString → Option URL) (r : MemoryRepository) (u : GoString) :
    (CreateCall.lookup u).step Parse r =
      match validateURL Parse u with
      | Except.error err => (CreateCall.returned (Except.error err), r)
      | Except.ok _ =>
        match r.originalToShort u with
        | some c => (CreateCall.returned (Except.ok c), r)
        | none => (CreateCall.store u, r) := by
  simp only [CreateCall.step]
  cases validateURL Parse u with
  | error err => rfl
  | ok x =>
    have hg : memoryService.repo.GetByOriginal r u = (r.GetByOriginal u, r) := rfl
    simp only [hg, MemoryRepository.GetByOriginal]
    cases r.originalToShort u with
    | some c => rfl
    | none => simp [ErrNotFound, errorsIs]

theorem store_step (Parse : GoString → Option URL) (r : MemoryRepository) (u : GoString) :
    ((r.Save (Generate u) u).1 = Except.ok () →
      (CreateCall.store u).step Parse r =
        (CreateCall.returned (Except.ok (Generate u)), (r.Save (Generate u) u).2)) ∧
    (r.Save (Generate u) u = (Except.error ErrAlreadyExists, r) →
      (CreateCall.store u).step Parse r =
        (CreateCall.returned
          (Except.error (Error.wrap "short code collision detected: %w" ErrAlreadyExists)), r)) := by
  have hs : memoryService.repo.Save r (Generate u) u = r.Save (Generate u) u := rfl
  simp only [CreateCall.step, hs]
  constructor
  · intro h
    rcases hsv : r.Save (Generate u) u with ⟨res, r2⟩
    rw [hsv] at h
    cases h
    rfl
  · intro h
    rw [h]
    simp [ErrAlreadyExists, errorsIs]

/-- The two steps of a call, run one after the other, are `URLService.Create`. -/
theorem step_step_eq_Create (Parse : GoString → Option URL) (r : MemoryRepository)
    (u : GoString) :
    CreateCall.step Parse ((CreateCall.lookup u).step Parse r).2
        ((CreateCall.lookup u).step Parse r).1 =
      (CreateCall.returned (memoryService.Create Parse r u).1,
        (memoryService.Create Parse r u).2) := by
  rw [lookup_step]
  rcases memCreate_cases Parse r u with ⟨hv, e⟩ | ⟨hv, c, h1, e⟩ | ⟨hv, h1, h2, e⟩ |
    ⟨hv, h1, h2, e⟩
  · rw [e, hv]; rfl
  · rw [e, hv]; simp only [h1]; rfl
  · rw [e, hv]; simp only [h1]
    exact (store_step Parse r u).1 h2
  · rw [e, hv]; simp only [h1]
    exact (store_step Parse r u).2 h2

theorem saveAll_append (calls₁ calls₂ : List (GoString × GoString)) :
    ∀ r : MemoryRepository, r.saveAll (calls₁ ++ calls₂) = (r.saveAll calls₁).saveAll calls₂ := by
  induction calls₁ with
  | nil => intro r; rfl
  | cons call calls ih => intro r; exact ih _

/-- A step of a call changes the store exactly by the `Save` it makes. -/
theorem step_store (Parse : GoString → Option URL) (r : MemoryRepository) (c : CreateCall) :
    (c.step Parse r).2 = r.saveAll c.saveArgs := by
  cases c with
  | lookup u =>
    rw [lookup_step]
    simp only [CreateCall.saveArgs, MemoryRepository.saveAll]
    cases validateURL Parse u with
    | error err => rfl
    | ok x =>
      cases r.originalToShort u with
      | some c => rfl
      | none => rfl
  | store u =>
    simp only [CreateCall.step, CreateCall.saveArgs, MemoryRepository.saveAll]
    have hs : memoryService.repo.Save r (Generate u) u = r.Save (Generate u) u := rfl
    rw [hs]
    rcases r.Save (Generate u) u with ⟨res, r2⟩
    cases res with
    | ok x => rfl
    | error e =>
      by_cases hae : errorsIs e ErrAlreadyExists = true
      · simp [hae]
      · simp [hae]
  | returned res => rfl

/-- Whatever the URLs and the interleaving, the store is the one that the `Save` calls,
run one after the other in the order in which they took the lock, produce. -/
theorem run_store_serial {n : Nat} (Parse : GoString → Option URL) (sched : List (Fin n)) :
    ∀ (s : Concurrent n) (r0 : MemoryRepository), s.store = r0.saveAll s.saves →
      (s.run Parse sched).store = r0.saveAll (s.run Parse sched).saves := by
  induction sched with
  | nil => intro s r0 h; exact h
  | cons i rest ih =>
    intro s r0 h
    apply ih
    show ((s.calls i).step Parse s.store).2 = r0.saveAll (s.saves ++ (s.calls i).saveArgs)
    rw [saveAll_append, ← h, step_store]


theorem step_inv {n : Nat} (Parse : GoString → Option URL) (urls : Fin n → GoString)
    (hvalid : ∀ i, validateURL Parse (urls i) = Except.ok ())
    (hcodes : Function.Injective fun i => Generate (urls i))
    (s : Concurrent n) (k : Fin n → Nat) (i : Fin n) (h : s.Inv urls k) :
    (s.step Parse i).Inv urls (Function.update k i (k i + 1)) := by
  obtain ⟨hc, hst, hcalls⟩ := h
  have hurls : Function.Injective urls := fun a b e => hcodes (congrArg Generate e)
  have hfree : ∀ j, k j < 2 → s.store.originalToShort (urls j) = none := by
    intro j hj
    cases ho : s.store.originalToShort (urls j) with
    | none => rfl
    | some c =>
      obtain ⟨i', h2, _, hu⟩ := hst c _ ((hc c (urls j)).2 ho)
      rw [hurls hu] at hj
      omega
  have hk : ∀ j, j ≠ i → Function.update k i (k i + 1) j = k j :=
    fun j hj => Function.update_noteq hj _ _
  have hki : Function.update k i (k i + 1) i = k i + 1 := Function.update_same _ _ _
  have hmono : ∀ j, 2 ≤ k j → 2 ≤ Function.update k i (k i + 1) j := by
    intro j hj
    by_cases e : j = i
    · subst e; rw [hki]; omega
    · rw [hk j e]; exact hj
  have hstore : (s.step Parse i).store = ((s.calls i).step Parse s.store).2 := rfl
  have hcalls' : (s.step Parse i).calls =
      Function.update s.calls i ((s.calls i).step Parse s.store).1 := rfl
  have hother : ∀ j, j ≠ i → (s.step Parse i).calls j = s.calls j := by
    intro j hj; rw [hcalls']; exact Function.update_noteq hj _ _
  have hself : (s.step Parse i).calls i = ((s.calls i).step Parse s.store).1 := by
    rw [hcalls']; exact Function.update_same _ _ _
  rcases Nat.lt_or_ge (k i) 2 with hlt | hge
  · rcases Nat.lt_or_ge (k i) 1 with h0 | h1
    · -- the lookup step
      have hk0 : k i = 0 := by omega
      have hcall := (hcalls i).1 hk0
      have hstep : (s.calls i).step Parse s.store = (CreateCall.store (urls i), s.store) := by
        rw [hcall, lookup_step, hvalid i]
        simp only [hfree i hlt]
      rw [hstep] at hstore hself
      refine ⟨by rw [hstore]; exact hc, ?_, ?_⟩
      · intro c u hcu
        rw [hstore] at hcu
        obtain ⟨j, h2, e1, e2⟩ := hst c u hcu
        exact ⟨j, hmono j h2, e1, e2⟩
      · intro j
        by_cases e : j = i
        · subst e
          rw [hki, hself]
          exact ⟨fun h => by omega, fun _ => rfl, fun h => by omega⟩
        · rw [hk j e, hother j e, hstore]
          exact hcalls j
    · -- the store step
      have hk1 : k i = 1 := by omega
      have hcall := (hcalls i).2.1 hk1
      have hcode : s.store.shortToOriginal (Generate (urls i)) = none := by
        cases hs : s.store.shortToOriginal (Generate (urls i)) with
        | none => rfl
        | some v =>
          obtain ⟨j, h2, e1, _⟩ := hst _ _ hs
          have : i = j := hcodes e1
          rw [← this] at h2
          omega
      have hsave : s.store.Save (Generate (urls i)) (urls i) = (Except.ok (),
          { shortToOriginal := s.store.shortToOriginal.set (Generate (urls i)) (urls i),
            originalToShort := s.store.originalToShort.set (urls i) (Generate (urls i)) }) := by
        simp only [MemoryRepository.Save, hcode, hfree i hlt]
      have hstep : (s.calls i).step Parse s.store =
          (CreateCall.returned (Except.ok (Generate (urls i))),
            (s.store.Save (Generate (urls i)) (urls i)).2) := by
        rw [hcall]
        exact (store_step Parse s.store (urls i)).1 (by rw [hsave])
      rw [hstep] at hstore hself
      refine ⟨by rw [hstore]; exact consistent_save _ _ _ hc, ?_, ?_⟩
      · intro c u hcu
        rw [hstore, hsave] at hcu
        change s.store.shortToOriginal.set (Generate (urls i)) (urls i) c = some u at hcu
        by_cases e : c = Generate (urls i)
        · rw [e, GoMap.set_same] at hcu
          refine ⟨i, by rw [hki]; omega, e, ?_⟩
          cases hcu; rfl
        · rw [GoMap.set_other _ _ _ _ e] at hcu
          obtain ⟨j, h2, e1, e2⟩ := hst c u hcu
          exact ⟨j, hmono j h2, e1, e2⟩
      · intro j
        by_cases e : j = i
        · subst e
          rw [hki, hself, hstore, hsave]
          refine ⟨fun h => by omega, fun h => by omega, fun _ => ⟨rfl, ?_⟩⟩
          exact GoMap.set_same _ _ _
        · rw [hk j e, hother j e, hstore]
          refine ⟨(hcalls j).1, (hcalls j).2.1, fun h2 => ⟨((hcalls j).2.2 h2).1, ?_⟩⟩
          exact Save_keeps_code _ _ _ _ _ ((hcalls j).2.2 h2).2
  · -- the call has returned
    have hcall := ((hcalls i).2.2 hge).1
    have hstep : (s.calls i).step Parse s.store = (s.calls i, s.store) := by
      rw [hcall]; rfl
    rw [hstep] at hstore hself
    refine ⟨by rw [hstore]; exact hc, ?_, ?_⟩
    · intro c u hcu
      rw [hstore] at hcu
      obtain ⟨j, h2, e1, e2⟩ := hst c u hcu
      exact ⟨j, hmono j h2, e1, e2⟩
    · intro j
      by_cases e : j = i
      · subst e
        rw [hki, hself, hstore]
        exact ⟨fun h => by omega, fun h => by omega, fun _ => (hcalls j).2.2 hge⟩
      · rw [hk j e, hother j e, hstore]
        exact hcalls j

theorem run_inv {n : Nat} (Parse : GoString → Option URL) (urls : Fin n → GoString)
    (hvalid : ∀ i, validateURL Parse (urls i) = Except.ok ())
    (hcodes : Function.Injective fun i => Generate (urls i)) (sched : List (Fin n)) :
    ∀ (s : Concurrent n) (k : Fin n → Nat), s.Inv urls k →
      (s.run Parse sched).Inv urls (fun j => k j + sched.count j) := by
  induction sched with
  | nil =>
    intro s k h
    have e : (fun j => k j + List.count j ([] : List (Fin n))) = k := by
      funext j; simp
    rw [e]; exact h
  | cons i rest ih =>
    intro s k h
    have h1 := ih (s.step Parse i) _ (step_inv Parse urls hvalid hcodes s k i h)
    have e : (fun j => Function.update k i (k i + 1) j + rest.count j) =
        (fun j => k j + (i :: rest).count j) := by
      funext j
      by_cases hj : j = i
      · subst hj
        simp [List.count_cons]
        omega
      · have hji : ¬ i = j := fun e => hj e.symm
        simp [List.count_cons, Function.update_noteq hj, hji]
    rw [e] at h1
    exact h1

theorem start_inv {n : Nat} (urls : Fin n → GoString) :
    (Concurrent.start urls).Inv urls (fun _ => 0) := by
  refine ⟨consistent_new, ?_, ?_⟩
  · intro c u h
    simp [Concurrent.start, NewMemoryRepository] at h
  · intro i
    exact ⟨fun _ => rfl, fun h => absurd h (Nat.zero_ne_one), fun h => absurd h (by simp)⟩


/-- C21. `n` concurrent `Create` calls with valid URLs whose generated codes, hence the
URLs, are pairwise distinct, on one in-memory store that starts empty: whatever the
interleaving of their atomic steps, the store is the one that the `Save` calls made so
far produce when run serially in the order in which they took the lock; every call
that has made its two steps has returned its generated code and its mapping is in both
indexes (no lost write); the stored mappings are exactly those of these calls and
different calls hold different codes; and when all calls have returned the store holds
exactly `n` mappings. -/
theorem concurrent_creates {n : Nat} (Parse : GoString → Option URL)
    (urls : Fin n → GoString) (sched : List (Fin n))
    (hvalid : ∀ i, validateURL Parse (urls i) = Except.ok ())
    (hcodes : Function.Injective fun i => Generate (urls i)) :
    ((Concurrent.start urls).run Parse sched).store =
      NewMemoryRepository.saveAll ((Concurrent.start urls).run Parse sched).saves ∧
    (∀ i, 2 ≤ sched.count i →
      ((Concurrent.start urls).run Parse sched).calls i =
        CreateCall.returned (Except.ok (Generate (urls i))) ∧
      ((Concurrent.start urls).run Parse sched).store.Get (Generate (urls i)) =
        Except.ok (urls i) ∧
      ((Concurrent.start urls).run Parse sched).store.GetByOriginal (urls i) =
        Except.ok (Generate (urls i))) ∧
    (∀ c u : GoString,
      ((Concurrent.start urls).run Parse sched).store.shortToOriginal c = some u ↔
        ∃ i, 2 ≤ sched.count i ∧ c = Generate (urls i) ∧ u = urls i) ∧
    (∀ u c : GoString,
      ((Concurrent.start urls).run Parse sched).store.originalToShort u = some c ↔
        ∃ i, 2 ≤ sched.count i ∧ c = Generate (urls i) ∧ u = urls i) ∧
    (∀ i j, i ≠ j → Generate (urls i) ≠ Generate (urls j) ∧ urls i ≠ urls j) ∧
    ((∀ i, 2 ≤ sched.count i) →
      ∃ S : Finset GoString,
        (∀ c, c ∈ S ↔
          ((Concurrent.start urls).run Parse sched).store.shortToOriginal c ≠ none) ∧
        S.card = n) := by
  have hserial := run_store_serial Parse sched (Concurrent.start urls) NewMemoryRepository rfl
  have hinv := run_inv Parse urls hvalid hcodes sched _ _ (start_inv urls)
  have e : (fun j => 0 + sched.count j) = fun j => sched.count j := by
    funext j; simp
  rw [e] at hinv
  obtain ⟨hc, hst, hcalls⟩ := hinv
  have hiff : ∀ c u : GoString,
      ((Concurrent.start urls).run Parse sched).store.shortToOriginal c = some u ↔
        ∃ i, 2 ≤ sched.count i ∧ c = Generate (urls i) ∧ u = urls i := by
    intro c u
    constructor
    · exact hst c u
    · rintro ⟨i, h2, rfl, rfl⟩
      exact ((hcalls i).2.2 h2).2
  refine ⟨hserial, ?_, hiff, ?_, ?_, ?_⟩
  · intro i h2
    have h3 := ((hcalls i).2.2 h2).2
    refine ⟨((hcalls i).2.2 h2).1, ?_, ?_⟩
    · simp [MemoryRepository.Get, h3]
    · simp [MemoryRepository.GetByOriginal, (hc _ _).1 h3]
  · intro u c
    rw [← hc c u]
    exact hiff c u
  · intro i j hij
    exact ⟨fun e => hij (hcodes e), fun e => hij (hcodes (congrArg Generate e))⟩
  · intro hall
    refine ⟨Finset.univ.image fun i => Generate (urls i), ?_, ?_⟩
    · intro c
      rw [Finset.mem_image]
      constructor
      · rintro ⟨i, _, rfl⟩
        rw [((hcalls i).2.2 (hall i)).2]
        simp
      · intro hne
        cases hs : ((Concurrent.start urls).run Parse sched).store.shortToOriginal c with
        | none => exact absurd hs hne
        | some u =>
          obtain ⟨i, _, e1, _⟩ := hst c u hs
          exact ⟨i, Finset.mem_univ _, e1.symm⟩
    · rw [Finset.card_image_of_injective _ hcodes, Finset.card_univ, Fintype.card_fin]

set_option maxRecDepth 1000000 in
theorem page_codes_injective :
    Function.Injective fun i : Fin 2 =>
      Generate ((fun i : Fin 2 =>
        if i = 0 then str "https://example.com/page1" else str "https://example.com/page2") i) := by
  decide

/-- Two `Create` calls whose steps alternate: both return their generated code and both
mappings are stored. -/
theorem concurrent_creates_witness :
    ((Concurrent.start (fun i : Fin 2 =>
        if i = 0 then str "https://example.com/page1" else str "https://example.com/page2")).run
        sampleParse [0, 1, 1, 0]).calls 0 =
      CreateCall.returned (Except.ok (Generate (str "https://example.com/page1"))) ∧
    ((Concurrent.start (fun i : Fin 2 =>
        if i = 0 then str "https://example.com/page1" else str "https://example.com/page2")).run
        sampleParse [0, 1, 1, 0]).store.GetByOriginal (str "https://example.com/page2") =
      Except.ok (Generate (str "https://example.com/page2")) :=
  ⟨((concurrent_creates sampleParse (fun i : Fin 2 =>
        if i = 0 then str "https://example.com/page1" else str "https://example.com/page2")
      [0, 1, 1, 0] (fun i => by fin_cases i <;> rfl) page_codes_injective).2.1 0
      (by decide)).1,
    ((concurrent_creates sampleParse (fun i : Fin 2 =>
        if i = 0 then str "https://example.com/page1" else str "https://example.com/page2")
      [0, 1, 1, 0] (fun i => by fin_cases i <;> rfl) page_codes_injective).2.1 1
      (by decide)).2.2⟩

end URLShorter
